import Mathlib

/-!
Verification of the TrendRadar title ledger and batch formatter (src/main.py).

The Python source is shallowly embedded: dictionaries become association
lists (preserving insertion order), Python strings become Lean strings,
byte lengths are UTF-8 byte counts, and float arithmetic is modelled by
exact rational arithmetic.  Each definition in this file transcribes the
correspondingly named function of src/main.py.
-/

namespace TrendRadar

/-! ### Basic string helpers -/

/-- UTF-8 byte length of a string: models Python len(s.encode("utf-8")). -/
def byteLen (s : String) : Nat :=
  (s.data.map Char.utf8Size).sum

/-- Does the character list start with the given pattern. -/
def startsWithL (pat : List Char) : List Char → Bool
  | [] => pat.isEmpty
  | c :: cs =>
    match pat with
    | [] => true
    | p :: ps => p == c && startsWithL ps cs

/-- Does the character list contain the pattern as a contiguous run.
Models the Python substring test (needle in haystack). -/
def containsSeq (pat : List Char) : List Char → Bool
  | [] => pat.isEmpty
  | c :: cs => startsWithL pat (c :: cs) || containsSeq pat cs

/-- Python needle in haystack on strings. -/
def strContains (haystack needle : String) : Bool :=
  containsSeq needle.data haystack.data

/-- Python str.lower, character by character (ASCII case folding). -/
def lowerS (s : String) : String :=
  ⟨s.data.map Char.toLower⟩

/-! ### Weighting engine: calculate_news_weight (src/main.py lines 939-972) -/

/-- The WEIGHT_CONFIG entry of CONFIG (src/main.py lines 127-131),
with the float weights modelled as rationals. -/
structure WeightConfig where
  RANK_WEIGHT : ℚ
  FREQUENCY_WEIGHT : ℚ
  HOTNESS_WEIGHT : ℚ
deriving DecidableEq, Repr

/-- One title entry as built by count_word_frequency (src/main.py lines
1278-1291) and rewrapped by prepare_report_data (lines 1449-1459): the
fields consumed by weighting, sorting and the batch formatter. -/
structure TitleData where
  title : String
  source_name : String
  time_display : String
  count : Nat
  ranks : List Nat
  rank_threshold : Nat
  url : String
  mobile_url : String
  is_new : Bool
deriving DecidableEq, Repr

/-- calculate_news_weight (src/main.py lines 939-972).  The global CONFIG
weight table is passed explicitly.  Division is exact rational division;
the empty ranks list is guarded exactly as in the source. -/
def calculate_news_weight (title_data : TitleData) (rank_threshold : Nat)
    (wc : WeightConfig) : ℚ :=
  let ranks := title_data.ranks
  if ranks.isEmpty then 0
  else
    let rank_scores := ranks.map (fun r => (11 : ℚ) - min (r : ℚ) 10)
    let rank_weight : ℚ := rank_scores.sum / (ranks.length : ℚ)
    let frequency_weight : ℚ := (min title_data.count 10 : ℕ) * 10
    let high_rank_count := (ranks.filter (fun r => decide (r ≤ rank_threshold))).length
    let hotness_ratio : ℚ := (high_rank_count : ℚ) / (ranks.length : ℚ)
    let hotness_weight : ℚ := hotness_ratio * 100
    rank_weight * wc.RANK_WEIGHT + frequency_weight * wc.FREQUENCY_WEIGHT
      + hotness_weight * wc.HOTNESS_WEIGHT

/-! ### Keyword group matching (src/main.py lines 975-1012 and 1190-1298) -/

/-- One processed word group (src/main.py lines 662-668). -/
structure WordGroup where
  required : List String
  normal : List String
  group_key : String
deriving DecidableEq, Repr

/-- The per-group match test shared by matches_word_groups and the group
loop of count_word_frequency: all required words present, and at least one
normal word present when the normal set is nonempty. -/
def groupMatches (title_lower : String) (g : WordGroup) : Bool :=
  (g.required.all fun w => strContains title_lower (lowerS w)) &&
  (g.normal.isEmpty || g.normal.any fun w => strContains title_lower (lowerS w))

/-- matches_word_groups (src/main.py lines 975-1012). -/
def matches_word_groups (title : String) (word_groups : List WordGroup)
    (filter_words : List String) : Bool :=
  if word_groups.isEmpty then true
  else
    let title_lower := lowerS title
    if filter_words.any (fun fw => strContains title_lower (lowerS fw)) then false
    else word_groups.any (fun g => groupMatches title_lower g)

/-- The group-selection loop of count_word_frequency (src/main.py lines
1192-1298): iterate groups in order, the special single All News group is
taken immediately, otherwise the first group passing the required and
normal checks is taken and the loop breaks. -/
def assign_group_loop (special : Bool) (title_lower : String) :
    List WordGroup → Nat → Option Nat
  | [], _ => none
  | g :: gs, i =>
    if special then some i
    else if groupMatches title_lower g then some i
    else assign_group_loop special title_lower gs (i + 1)

/-- Which Stat group receives a title in count_word_frequency: the
pre-check with matches_word_groups (line 1173) followed by the group loop
(lines 1192-1298).  Returns the index of the group whose Stat the title
is appended to, or none when the title is skipped. -/
def assign_group (title : String) (word_groups : List WordGroup)
    (filter_words : List String) : Option Nat :=
  if matches_word_groups title word_groups filter_words then
    let special :=
      match word_groups with
      | [g] => g.group_key == "All News"
      | _ => false
    assign_group_loop special (lowerS title) word_groups 0
  else none

/-! ### Sorting inside count_word_frequency (src/main.py lines 1356-1379) -/

/-- The tie-break value min(x.ranks) if nonempty else 999, as in the sort
key on src/main.py line 1361. -/
def sortMinKey (td : TitleData) : Nat :=
  match td.ranks with
  | [] => 999
  | r :: rs => rs.foldl Nat.min r

/-- The Python sort key tuple (-weight, min ranks or 999, -count) of
src/main.py lines 1359-1363, into a lexicographic order. -/
def title_key (rank_threshold : Nat) (wc : WeightConfig) (td : TitleData) :
    Lex (ℚ × Lex (ℕ × ℤ)) :=
  toLex (-(calculate_news_weight td rank_threshold wc),
    toLex (sortMinKey td, -(td.count : ℤ)))

/-- The ordering the claim describes: descending weight, then ascending
min rank (999 when ranks missing), then descending count. -/
def title_sort_rel (rank_threshold : Nat) (wc : WeightConfig)
    (a b : TitleData) : Prop :=
  calculate_news_weight b rank_threshold wc < calculate_news_weight a rank_threshold wc ∨
  (calculate_news_weight a rank_threshold wc = calculate_news_weight b rank_threshold wc ∧
    (sortMinKey a < sortMinKey b ∨ (sortMinKey a = sortMinKey b ∧ b.count ≤ a.count)))

/-- The sorted call on src/main.py lines 1357-1364, modelled by a stable
sort with respect to the key tuple order. -/
def sort_titles_by_weight (rank_threshold : Nat) (wc : WeightConfig)
    (l : List TitleData) : List TitleData :=
  List.insertionSort
    (fun a b => title_key rank_threshold wc a ≤ title_key rank_threshold wc b) l

/-- One Stat group as returned by count_word_frequency (src/main.py lines
1366-1377) and passed through prepare_report_data. -/
structure Stat where
  word : String
  count : Nat
  percentage : ℚ
  titles : List TitleData
deriving DecidableEq, Repr

/-- The final stats.sort(key count, reverse True) of src/main.py line
1379, modelled by a stable sort by descending count. -/
def sort_stats (l : List Stat) : List Stat :=
  List.insertionSort (fun a b => b.count ≤ a.count) l

/-! ### Python string primitives used by the snapshot writer and parser -/

/-- Whitespace recognised by the Python regex class backslash-s and by
str.strip, restricted to the ASCII range used by the data. -/
def isPyWs (c : Char) : Bool :=
  c = ' ' || c = '\t' || c = '\n' || c = '\r' || c = '\x0b' || c = '\x0c'

/-- Python str.strip on a character list. -/
def stripL (l : List Char) : List Char :=
  ((l.dropWhile isPyWs).reverse.dropWhile isPyWs).reverse

/-- Python str.strip. -/
def pyStrip (s : String) : String :=
  ⟨stripL s.data⟩

/-- Split at the first occurrence of sep: Python s.split(sep, 1) when sep
occurs, none when it does not. -/
def pySplitOnce (sep : List Char) : List Char → Option (List Char × List Char)
  | [] => none
  | c :: cs =>
    if startsWithL sep (c :: cs) then some ([], (c :: cs).drop sep.length)
    else
      match pySplitOnce sep cs with
      | none => none
      | some (a, b) => some (c :: a, b)

/-- Split at the last occurrence of sep: Python s.rsplit(sep, 1) when sep
occurs, none when it does not. -/
def pyRSplitOnce (sep l : List Char) : Option (List Char × List Char) :=
  match pySplitOnce sep.reverse l.reverse with
  | none => none
  | some (a, b) => some (b.reverse, a.reverse)

/-- Fuelled worker for pySplit; fuel bounded by the list length suffices
because the separator is nonempty wherever pySplit is used. -/
def pySplitFuel (sep : List Char) : Nat → List Char → List (List Char)
  | 0, l => [l]
  | fuel + 1, l =>
    match pySplitOnce sep l with
    | none => [l]
    | some (a, b) => a :: pySplitFuel sep fuel b

/-- Python s.split(sep) with a nonempty separator. -/
def pySplit (sep l : List Char) : List (List Char) :=
  pySplitFuel sep (l.length + 1) l

/-- Python s.endswith(suf). -/
def endsWithL (suf l : List Char) : Bool :=
  startsWithL suf.reverse l.reverse

/-- Python s.isdigit restricted to ASCII digits: nonempty and all digits. -/
def isDigitStr (l : List Char) : Bool :=
  !l.isEmpty && l.all Char.isDigit

/-- Python int() on a string of ASCII digits. -/
def natOfDigits (l : List Char) : Nat :=
  l.foldl (fun n c => n * 10 + (c.toNat - '0'.toNat)) 0

/-- Fuelled worker for pyReplace. -/
def replaceAllFuel (pat rep : List Char) : Nat → List Char → List Char
  | 0, l => l
  | fuel + 1, l =>
    match pySplitOnce pat l with
    | none => l
    | some (a, b) => a ++ rep ++ replaceAllFuel pat rep fuel b

/-- Python s.replace(pat, rep) with a nonempty pattern. -/
def pyReplace (s pat rep : String) : String :=
  ⟨replaceAllFuel pat.data rep.data (s.data.length + 1) s.data⟩

/-- Collapse each maximal whitespace run into one space: the body of the
regex substitution in clean_title.  The flag records whether the previous
character belonged to a whitespace run. -/
def collapseWsAux : Bool → List Char → List Char
  | _, [] => []
  | inWs, c :: cs =>
    if isPyWs c then
      if inWs then collapseWsAux true cs else ' ' :: collapseWsAux true cs
    else c :: collapseWsAux false cs

/-- clean_title (src/main.py lines 238-245): newline and carriage return
become spaces, whitespace runs collapse to a single space, then strip. -/
def clean_title (title : String) : String :=
  let step1 := title.data.map fun c =>
    if c = '\n' then ' ' else if c = '\r' then ' ' else c
  pyStrip ⟨collapseWsAux false step1⟩

/-- html_escape (src/main.py lines 317-328). -/
def html_escape (text : String) : String :=
  pyReplace (pyReplace (pyReplace (pyReplace (pyReplace text
    "&" "&amp;") "<" "&lt;") ">" "&gt;") "\"" "&quot;") "'" "&#x27;"

/-! ### Snapshot writer and parser (src/main.py lines 563-748) -/

/-- One title observation: the per-title dict with keys ranks, url,
mobileUrl, summary used throughout the data-processing section. -/
structure Observation where
  ranks : List Nat
  url : String
  mobileUrl : String
  summary : String
deriving DecidableEq, Repr

/-- Association list modelling a Python dict: insertion order preserved,
assignment replaces in place, new keys are appended. -/
abbrev AList (β : Type) := List (String × β)

/-- Python d.get(k) / k in d. -/
def lookupA {β : Type} : AList β → String → Option β
  | [], _ => none
  | (k', v) :: rest, k => if k' = k then some v else lookupA rest k

/-- Python d[k] = v. -/
def setA {β : Type} : AList β → String → β → AList β
  | [], k, v => [(k, v)]
  | (k', v') :: rest, k, v =>
    if k' = k then (k', v) :: rest else (k', v') :: setA rest k v

/-- Python in-place mutation of d[k] when present, identity otherwise. -/
def updateA {β : Type} : AList β → String → (β → β) → AList β
  | [], _, _ => []
  | (k', v') :: rest, k, f =>
    if k' = k then (k', f v') :: rest else (k', v') :: updateA rest k f

/-- The summary cleanup of save_titles_to_file line 605: newlines become
spaces and carriage returns disappear. -/
def cleanSummary (summary : String) : String :=
  ⟨(summary.data.map fun c => if c = '\n' then ' ' else c).filter fun c => c ≠ '\r'⟩

/-- One title line written by save_titles_to_file (lines 596-607). -/
def title_line (rank : Nat) (cleaned_title url mobile_url summary : String) : String :=
  let line := toString rank ++ ". " ++ cleaned_title
  let line := if url ≠ "" then line ++ " [URL:" ++ url ++ "]" else line
  let line := if mobile_url ≠ "" then line ++ " [MOBILE:" ++ mobile_url ++ "]" else line
  if summary ≠ "" then line ++ " [SUMMARY:" ++ cleanSummary summary ++ "]" else line

/-- The text that save_titles_to_file (src/main.py lines 563-616) writes
for one source block: header line, titles sorted by their first rank, and
the trailing blank line. -/
def save_source_block (id_to_name : AList String) (source_id : String)
    (title_data : AList Observation) : String :=
  let headerLine :=
    match lookupA id_to_name source_id with
    | some n => if n ≠ "" ∧ n ≠ source_id then source_id ++ " | " ++ n else source_id
    | none => source_id
  let entries := title_data.map fun tv =>
    let rank := match tv.2.ranks with
      | [] => 1
      | r :: _ => r
    (rank, clean_title tv.1, tv.2.url, tv.2.mobileUrl, tv.2.summary)
  let sorted_titles := List.insertionSort (fun a b => a.1 ≤ b.1) entries
  headerLine ++ "\n"
    ++ String.join (sorted_titles.map fun e =>
        title_line e.1 e.2.1 e.2.2.1 e.2.2.2.1 e.2.2.2.2 ++ "\n")
    ++ "\n"

/-- The full file content produced by save_titles_to_file, with the
failed-ids footer block. -/
def save_titles_content (results : AList (AList Observation))
    (id_to_name : AList String) (failed_ids : List String) : String :=
  String.join (results.map fun sv => save_source_block id_to_name sv.1 sv.2)
    ++ (if failed_ids ≠ [] then
          "==== Following IDs Failed ====\n"
            ++ String.join (failed_ids.map fun idv => idv ++ "\n")
        else "")

/-- Parsing of one title line by parse_file_titles (src/main.py lines
703-743): optional leading rank, then the MOBILE, URL and SUMMARY tags
are peeled off from the right in that order. -/
def parse_title_line (line : List Char) : String × Observation :=
  let title_part := stripL line
  let (rank, title_part) :=
    match pySplitOnce ". ".data title_part with
    | some (pre, post) =>
      if isDigitStr pre then (some (natOfDigits pre), post) else (none, title_part)
    | none => (none, title_part)
  let (mobile_url, title_part) :=
    match pyRSplitOnce " [MOBILE:".data title_part with
    | some (pre, post) =>
      if endsWithL "]".data post then (post.dropLast, pre) else ([], pre)
    | none => ([], title_part)
  let (url, title_part) :=
    match pyRSplitOnce " [URL:".data title_part with
    | some (pre, post) =>
      if endsWithL "]".data post then (post.dropLast, pre) else ([], pre)
    | none => ([], title_part)
  let (summary, title_part) :=
    match pyRSplitOnce " [SUMMARY:".data title_part with
    | some (pre, post) =>
      if endsWithL "]".data post then (post.dropLast, pre) else ([], pre)
    | none => ([], title_part)
  let title := clean_title (pyStrip ⟨title_part⟩)
  let ranks := match rank with
    | some r => [r]
    | none => [1]
  (title, ⟨ranks, ⟨url⟩, ⟨mobile_url⟩, ⟨summary⟩⟩)

/-- Parsing of one blank-line separated section by parse_file_titles
(src/main.py lines 682-743), folded over the accumulated result maps. -/
def parse_section (acc : AList (AList Observation) × AList String)
    (sect : List Char) : AList (AList Observation) × AList String :=
  if (stripL sect).isEmpty
      || containsSeq "==== Following IDs Failed ====".data sect then acc
  else
    let lines := pySplit "\n".data (stripL sect)
    if lines.length < 2 then acc
    else
      let header_line := stripL (lines.headD [])
      let (source_id, name) :=
        if containsSeq " | ".data header_line then
          match pySplitOnce " | ".data header_line with
          | some (a, b) => ((⟨stripL a⟩ : String), (⟨stripL b⟩ : String))
          | none => ((⟨header_line⟩ : String), (⟨header_line⟩ : String))
        else ((⟨header_line⟩ : String), (⟨header_line⟩ : String))
      let source_map := (lines.drop 1).foldl
        (fun m line =>
          if (stripL line).isEmpty then m
          else
            let te := parse_title_line line
            setA m te.1 te.2)
        ([] : AList Observation)
      (setA acc.1 source_id source_map, setA acc.2 source_id name)

/-- parse_file_titles (src/main.py lines 673-748) on the file content. -/
def parse_file_titles (content : String) :
    AList (AList Observation) × AList String :=
  (pySplit "\n\n".data content.data).foldl parse_section ([], [])

/-! ### The title ledger: process_source_data (src/main.py lines 795-874) -/

/-- One accumulated ledger entry of title_info. -/
structure Info where
  first_time : String
  last_time : String
  count : Nat
  ranks : List Nat
  url : String
  mobileUrl : String
  summary : String
deriving DecidableEq, Repr

/-- The mutable pair (all_results, title_info) threaded through
read_all_today_titles and process_source_data. -/
structure LedgerState where
  all_results : AList (AList Observation)
  title_info : AList (AList Info)
deriving DecidableEq, Repr

/-- The rank merge of src/main.py lines 854-857: append each incoming
rank not already present, preserving order. -/
def merge_ranks (existing ranks : List Nat) : List Nat :=
  ranks.foldl (fun acc r => if r ∈ acc then acc else acc ++ [r]) existing

/-- Python string-or: the first operand unless it is empty. -/
def orElseStr (a b : String) : String :=
  if a = "" then b else a

/-- A freshly created ledger entry (src/main.py lines 815-823 and
838-846). -/
def freshInfo (obs : Observation) (time_info : String) : Info :=
  ⟨time_info, time_info, 1, obs.ranks, obs.url, obs.mobileUrl, obs.summary⟩

/-- The merged all_results observation of src/main.py lines 859-864. -/
def mergedObs (existing obs : Observation) : Observation :=
  { ranks := merge_ranks existing.ranks obs.ranks,
    url := orElseStr existing.url obs.url,
    mobileUrl := orElseStr existing.mobileUrl obs.mobileUrl,
    summary := orElseStr existing.summary obs.summary }

/-- The in-place title_info update of src/main.py lines 866-874: new
last_time, the merged ranks, count incremented once, and the fill-once
fields set only when still empty.  The merged ranks are computed from the
matching all_results entry, whose ranks coincide with the info ranks on
every reachable state. -/
def stepInfo (info : Info) (merged_ranks : List Nat) (obs : Observation)
    (time_info : String) : Info :=
  { info with
    last_time := time_info,
    ranks := merged_ranks,
    count := info.count + 1,
    url := if info.url = "" then obs.url else info.url,
    mobileUrl := if info.mobileUrl = "" then obs.mobileUrl else info.mobileUrl,
    summary := if info.summary = "" then obs.summary else info.summary }

/-- The per-title body of the else branch of process_source_data
(src/main.py lines 825-874).  The title_info update mutates the existing
entry in place, which updateA models. -/
def merge_title (source_id title : String) (obs : Observation)
    (time_info : String) (st : LedgerState) : LedgerState :=
  match lookupA st.all_results source_id with
  | none => st
  | some source_map =>
    match lookupA source_map title with
    | none =>
      { all_results := setA st.all_results source_id (setA source_map title obs),
        title_info := updateA st.title_info source_id fun m =>
          setA m title (freshInfo obs time_info) }
    | some existing =>
      let merged_ranks := merge_ranks existing.ranks obs.ranks
      { all_results :=
          setA st.all_results source_id (setA source_map title (mergedObs existing obs)),
        title_info := updateA st.title_info source_id fun m =>
          updateA m title fun info => stepInfo info merged_ranks obs time_info }

/-- The first branch of process_source_data (src/main.py lines 803-823):
the whole title_data dict is installed and a fresh info entry is written
for every title, on top of whatever title_info already holds. -/
def insert_fresh_infos (title_data : AList Observation) (time_info : String)
    (m : AList Info) : AList Info :=
  title_data.foldl (fun acc tv => setA acc tv.1 (freshInfo tv.2 time_info)) m

/-- process_source_data (src/main.py lines 795-874) as a pure state
transformer. -/
def process_source_data (source_id : String) (title_data : AList Observation)
    (time_info : String) (st : LedgerState) : LedgerState :=
  match lookupA st.all_results source_id with
  | none =>
    let info0 :=
      match lookupA st.title_info source_id with
      | none => []
      | some m => m
    { all_results := setA st.all_results source_id title_data,
      title_info := setA st.title_info source_id
        (insert_fresh_infos title_data time_info info0) }
  | some _ =>
    title_data.foldl (fun s tv => merge_title source_id tv.1 tv.2 time_info s) st

/-- One parsed snapshot file: its time stem and its titles_by_id map. -/
structure Snapshot where
  time_info : String
  data : AList (AList Observation)
deriving DecidableEq, Repr

/-- The per-file loop of read_all_today_titles (src/main.py lines
787-790). -/
def process_snapshot (st : LedgerState) (snap : Snapshot) : LedgerState :=
  snap.data.foldl (fun s sd => process_source_data sd.1 sd.2 snap.time_info s) st

/-- The ledger built by read_all_today_titles from the ordered snapshot
files of the day. -/
def build_ledger (snaps : List Snapshot) : LedgerState :=
  snaps.foldl process_snapshot ⟨[], []⟩

/-- Lookup of one ledger entry. -/
def lookupInfo (st : LedgerState) (source_id title : String) : Option Info :=
  (lookupA st.title_info source_id).bind fun m => lookupA m title

/-- Lookup of one accumulated all_results observation. -/
def obsAt (st : LedgerState) (source_id title : String) : Option Observation :=
  (lookupA st.all_results source_id).bind fun m => lookupA m title

/-- Agreement of a ledger entry with its all_results twin: both absent,
or both present with the same ranks and fill-once fields. -/
def agreeO : Option Info → Option Observation → Prop
  | some info, some obs =>
    info.ranks = obs.ranks ∧ info.url = obs.url ∧
    info.mobileUrl = obs.mobileUrl ∧ info.summary = obs.summary
  | none, none => True
  | _, _ => False

/-- The well-formedness invariant of every ledger state reachable from
the empty state: the all_results and title_info maps hold the same
sources and, per (source, title), entries agreeing on ranks and fill-once
fields. -/
def WF (st : LedgerState) : Prop :=
  (∀ s, (lookupA st.title_info s).isSome = (lookupA st.all_results s).isSome) ∧
  (∀ s t, agreeO (lookupInfo st s t) (obsAt st s t))

/-- Order-preserving deduplication, the reference notion used by the
rank-set claims. -/
def dedup_keep_order (l : List Nat) : List Nat :=
  l.foldl (fun acc r => if r ∈ acc then acc else acc ++ [r]) []

/-! ### Per-channel rendering (src/main.py lines 1033-1070 and 1481-1601) -/

/-- format_rank_display (src/main.py lines 1033-1070).  Only the minimum
and maximum of the deduplicated sorted ranks are displayed. -/
def format_rank_display (ranks : List Nat) (rank_threshold : Nat)
    (format_type : String) : String :=
  match ranks with
  | [] => ""
  | r :: rs =>
    let min_rank := rs.foldl Nat.min r
    let max_rank := rs.foldl Nat.max r
    let hl :=
      if format_type = "html" then ("<font color='red'><strong>", "</strong></font>")
      else if format_type = "feishu" then ("<font color='red'>**", "**</font>")
      else if format_type = "dingtalk" then ("**", "**")
      else if format_type = "wework" then ("**", "**")
      else if format_type = "telegram" then ("<b>", "</b>")
      else ("**", "**")
    let core :=
      if min_rank = max_rank then "[" ++ toString min_rank ++ "]"
      else "[" ++ toString min_rank ++ " - " ++ toString max_rank ++ "]"
    if min_rank ≤ rank_threshold then hl.1 ++ core ++ hl.2 else core

/-- format_title_for_platform (src/main.py lines 1481-1601) for the five
channels reached from split_content_into_batches.  The html and fallback
branches are never reached from the batch splitter. -/
def format_title_for_platform (platform : String) (td : TitleData)
    (show_source : Bool) : String :=
  let rank_display := format_rank_display td.ranks td.rank_threshold platform
  let link_url := if td.mobile_url ≠ "" then td.mobile_url else td.url
  let cleaned_title := clean_title td.title
  let newMark := if td.is_new then "🆕 " else ""
  if platform = "feishu" then
    let formatted_title :=
      if link_url ≠ "" then "[" ++ cleaned_title ++ "](" ++ link_url ++ ")"
      else cleaned_title
    let result :=
      if show_source then
        "<font color='grey'>[" ++ td.source_name ++ "]</font> " ++ newMark ++ formatted_title
      else newMark ++ formatted_title
    let result := if rank_display ≠ "" then result ++ " " ++ rank_display else result
    let result :=
      if td.time_display ≠ "" then
        result ++ " <font color='grey'>- " ++ td.time_display ++ "</font>"
      else result
    if td.count > 1 then
      result ++ " <font color='green'>(" ++ toString td.count ++ " times)</font>"
    else result
  else if platform = "dingtalk" then
    let formatted_title :=
      if link_url ≠ "" then "[" ++ cleaned_title ++ "](" ++ link_url ++ ")"
      else cleaned_title
    let result :=
      if show_source then "[" ++ td.source_name ++ "] " ++ newMark ++ formatted_title
      else newMark ++ formatted_title
    let result := if rank_display ≠ "" then result ++ " " ++ rank_display else result
    let result :=
      if td.time_display ≠ "" then result ++ " - " ++ td.time_display else result
    if td.count > 1 then result ++ " (" ++ toString td.count ++ " times)" else result
  else if platform = "wework" then
    let formatted_title :=
      if link_url ≠ "" then "[" ++ cleaned_title ++ "](" ++ link_url ++ ")"
      else cleaned_title
    let result :=
      if show_source then "[" ++ td.source_name ++ "] " ++ newMark ++ formatted_title
      else newMark ++ formatted_title
    let result := if rank_display ≠ "" then result ++ " " ++ rank_display else result
    let result :=
      if td.time_display ≠ "" then result ++ " - " ++ td.time_display else result
    if td.count > 1 then result ++ " (" ++ toString td.count ++ " times)" else result
  else if platform = "telegram" then
    let formatted_title :=
      if link_url ≠ "" then
        "<a href=\"" ++ link_url ++ "\">" ++ html_escape cleaned_title ++ "</a>"
      else cleaned_title
    let result :=
      if show_source then "[" ++ td.source_name ++ "] " ++ newMark ++ formatted_title
      else newMark ++ formatted_title
    let result := if rank_display ≠ "" then result ++ " " ++ rank_display else result
    let result :=
      if td.time_display ≠ "" then result ++ " <code>- " ++ td.time_display ++ "</code>"
      else result
    if td.count > 1 then result ++ " <code>(" ++ toString td.count ++ " times)</code>"
    else result
  else if platform = "ntfy" then
    let formatted_title :=
      if link_url ≠ "" then "[" ++ cleaned_title ++ "](" ++ link_url ++ ")"
      else cleaned_title
    let result :=
      if show_source then "[" ++ td.source_name ++ "] " ++ newMark ++ formatted_title
      else newMark ++ formatted_title
    let result := if rank_display ≠ "" then result ++ " " ++ rank_display else result
    let result :=
      if td.time_display ≠ "" then result ++ " `- " ++ td.time_display ++ "`"
      else result
    if td.count > 1 then result ++ " `(" ++ toString td.count ++ " times)`" else result
  else ""

/-! ### The batch splitter (src/main.py lines 2708-3172) -/

/-- One novelty source block as produced by prepare_report_data
(src/main.py lines 1434-1440). -/
structure SourceData where
  source_id : String
  source_name : String
  titles : List TitleData
deriving DecidableEq, Repr

/-- The report dict returned by prepare_report_data (src/main.py lines
1471-1478), the sole input of the batch splitter. -/
structure ReportData where
  stats : List Stat
  new_titles : List SourceData
  failed_ids : List String
  total_new_count : Nat
deriving DecidableEq, Repr

/-- The optional version-update payload interpolated into footers. -/
structure UpdateInfo where
  remote_version : String
  current_version : String
deriving DecidableEq, Repr

/-- total_titles (src/main.py lines 2728-2730). -/
def total_titles_of (stats : List Stat) : Nat :=
  ((stats.filter fun s => decide (0 < s.count)).map fun s => s.titles.length).sum

/-- base_header (src/main.py lines 2733-2746).  The Beijing timestamp is
passed as the already formatted string now_str. -/
def base_header_for (format_type : String) (total_titles : Nat)
    (now_str : String) : String :=
  if format_type = "wework" then
    "**Total News:** " ++ toString total_titles ++ "\n\n\n\n"
  else if format_type = "telegram" then
    "Total News: " ++ toString total_titles ++ "\n\n"
  else if format_type = "ntfy" then
    "**Total News:** " ++ toString total_titles ++ "\n\n"
  else if format_type = "feishu" then ""
  else if format_type = "dingtalk" then
    "**Total News:** " ++ toString total_titles ++ "\n\n"
      ++ "**Time:** " ++ now_str ++ "\n\n"
      ++ "**Type:** TrendRadar Analysis Report\n\n"
      ++ "---\n\n"
  else ""

/-- base_footer (src/main.py lines 2748-2768). -/
def base_footer_for (format_type : String) (now_str : String)
    (update_info : Option UpdateInfo) : String :=
  if format_type = "wework" then
    "\n\n\n> Updated: " ++ now_str
      ++ (match update_info with
          | some u =>
            "\n> TrendRadar New Version **" ++ u.remote_version
              ++ "** Found, Current **" ++ u.current_version ++ "**"
          | none => "")
  else if format_type = "telegram" then
    "\n\nUpdated: " ++ now_str
      ++ (match update_info with
          | some u =>
            "\nTrendRadar New Version " ++ u.remote_version
              ++ " Found, Current " ++ u.current_version
          | none => "")
  else if format_type = "ntfy" then
    "\n\n> Updated: " ++ now_str
      ++ (match update_info with
          | some u =>
            "\n> TrendRadar New Version **" ++ u.remote_version
              ++ "** Found, Current **" ++ u.current_version ++ "**"
          | none => "")
  else if format_type = "feishu" then
    "\n\n<font color='grey'>Updated: " ++ now_str ++ "</font>"
      ++ (match update_info with
          | some u =>
            "\n<font color='grey'>TrendRadar New Version " ++ u.remote_version
              ++ " Found, Current " ++ u.current_version ++ "</font>"
          | none => "")
  else if format_type = "dingtalk" then
    "\n\n> Updated: " ++ now_str
      ++ (match update_info with
          | some u =>
            "\n> TrendRadar New Version **" ++ u.remote_version
              ++ "** Found, Current **" ++ u.current_version ++ "**"
          | none => "")
  else ""

/-- stats_header (src/main.py lines 2770-2781). -/
def stats_header_for (format_type : String) (stats_nonempty : Bool) : String :=
  if !stats_nonempty then ""
  else if format_type = "wework" then "📊 **Trending Keywords Stats**\n\n"
  else if format_type = "telegram" then "📊 Trending Keywords Stats\n\n"
  else if format_type = "ntfy" then "📊 **Trending Keywords Stats**\n\n"
  else if format_type = "feishu" then "📊 **Trending Keywords Stats**\n\n"
  else if format_type = "dingtalk" then "📊 **Trending Keywords Stats**\n\n"
  else ""

/-- word_header (src/main.py lines 2827-2874). -/
def word_header_for (format_type sequence_display word : String)
    (count : Nat) : String :=
  if format_type = "wework" then
    if count ≥ 10 then
      "🔥 " ++ sequence_display ++ " **" ++ word ++ "** : **" ++ toString count ++ "** items\n\n"
    else if count ≥ 5 then
      "📈 " ++ sequence_display ++ " **" ++ word ++ "** : **" ++ toString count ++ "** items\n\n"
    else
      "📌 " ++ sequence_display ++ " **" ++ word ++ "** : " ++ toString count ++ " items\n\n"
  else if format_type = "telegram" then
    if count ≥ 10 then
      "🔥 " ++ sequence_display ++ " " ++ word ++ " : " ++ toString count ++ " items\n\n"
    else if count ≥ 5 then
      "📈 " ++ sequence_display ++ " " ++ word ++ " : " ++ toString count ++ " items\n\n"
    else
      "📌 " ++ sequence_display ++ " " ++ word ++ " : " ++ toString count ++ " items\n\n"
  else if format_type = "ntfy" then
    if count ≥ 10 then
      "🔥 " ++ sequence_display ++ " **" ++ word ++ "** : **" ++ toString count ++ "** items\n\n"
    else if count ≥ 5 then
      "📈 " ++ sequence_display ++ " **" ++ word ++ "** : **" ++ toString count ++ "** items\n\n"
    else
      "📌 " ++ sequence_display ++ " **" ++ word ++ "** : " ++ toString count ++ " items\n\n"
  else if format_type = "feishu" then
    if count ≥ 10 then
      "🔥 <font color='grey'>" ++ sequence_display ++ "</font> **" ++ word
        ++ "** : <font color='red'>" ++ toString count ++ "</font> items\n\n"
    else if count ≥ 5 then
      "📈 <font color='grey'>" ++ sequence_display ++ "</font> **" ++ word
        ++ "** : <font color='orange'>" ++ toString count ++ "</font> items\n\n"
    else
      "📌 <font color='grey'>" ++ sequence_display ++ "</font> **" ++ word
        ++ "** : " ++ toString count ++ " items\n\n"
  else if format_type = "dingtalk" then
    if count ≥ 10 then
      "🔥 " ++ sequence_display ++ " **" ++ word ++ "** : **" ++ toString count ++ "** items\n\n"
    else if count ≥ 5 then
      "📈 " ++ sequence_display ++ " **" ++ word ++ "** : **" ++ toString count ++ "** items\n\n"
    else
      "📌 " ++ sequence_display ++ " **" ++ word ++ "** : " ++ toString count ++ " items\n\n"
  else ""

/-- The rendered title used in the stats section (src/main.py lines
2880-2901 and 2929-2950): the five channels call
format_title_for_platform with show_source, anything else renders the raw
title. -/
def statTitleFormatted (format_type : String) (td : TitleData) : String :=
  if format_type = "wework" ∨ format_type = "telegram" ∨ format_type = "ntfy"
      ∨ format_type = "feishu" ∨ format_type = "dingtalk" then
    format_title_for_platform format_type td true
  else td.title

/-- The rendered title used in the novelty section (src/main.py lines
3040-3057 and 3085-3102): is_new is forced off, the source is not shown,
and the ntfy channel falls through to the raw title. -/
def newTitleFormatted (format_type : String) (td : TitleData) : String :=
  if format_type = "wework" ∨ format_type = "telegram"
      ∨ format_type = "feishu" ∨ format_type = "dingtalk" then
    format_title_for_platform format_type { td with is_new := false } false
  else td.title

/-- The word_header of a stat at position i of total_count. -/
def word_header_of (format_type : String) (total_count i : Nat)
    (stat : Stat) : String :=
  word_header_for format_type
    ("[" ++ toString (i + 1) ++ "/" ++ toString total_count ++ "]")
    stat.word stat.count

/-- first_news_line of the stats section (src/main.py lines 2877-2905):
an extra blank line follows when more titles succeed it. -/
def stats_first_line (format_type : String) (stat : Stat) : String :=
  match stat.titles with
  | [] => ""
  | t0 :: rest =>
    "  1. " ++ statTitleFormatted format_type t0 ++ "\n"
      ++ (if rest.isEmpty then "" else "\n")

/-- A follow-up news line of the stats section (src/main.py lines
2952-2954). -/
def stats_news_line (format_type : String) (titles_length j : Nat)
    (td : TitleData) : String :=
  "  " ++ toString (j + 1) ++ ". " ++ statTitleFormatted format_type td ++ "\n"
    ++ (if j < titles_length - 1 then "\n" else "")

/-- separator (src/main.py lines 2971-2981). -/
def separator_for (format_type feishu_sep : String) : String :=
  if format_type = "wework" then "\n\n\n\n"
  else if format_type = "telegram" then "\n\n"
  else if format_type = "ntfy" then "\n\n"
  else if format_type = "feishu" then "\n" ++ feishu_sep ++ "\n\n"
  else if format_type = "dingtalk" then "\n---\n\n"
  else ""

/-- new_header (src/main.py lines 2992-3004). -/
def new_header_for (format_type feishu_sep : String)
    (total_new_count : Nat) : String :=
  if format_type = "wework" then
    "\n\n\n\n🆕 **New Trending News** (Total " ++ toString total_new_count ++ " items)\n\n"
  else if format_type = "telegram" then
    "\n\n🆕 New Trending News (Total " ++ toString total_new_count ++ " items)\n\n"
  else if format_type = "ntfy" then
    "\n\n🆕 **New Trending News** (Total " ++ toString total_new_count ++ " items)\n\n"
  else if format_type = "feishu" then
    "\n" ++ feishu_sep ++ "\n\n🆕 **New Trending News** (Total "
      ++ toString total_new_count ++ " items)\n\n"
  else if format_type = "dingtalk" then
    "\n---\n\n🆕 **New Trending News** (Total " ++ toString total_new_count ++ " items)\n\n"
  else ""

/-- source_header (src/main.py lines 3021-3031). -/
def source_header_for (format_type source_name : String)
    (titles_length : Nat) : String :=
  if format_type = "wework" then
    "**" ++ source_name ++ "** (" ++ toString titles_length ++ " items):\n\n"
  else if format_type = "telegram" then
    source_name ++ " (" ++ toString titles_length ++ " items):\n\n"
  else if format_type = "ntfy" then
    "**" ++ source_name ++ "** (" ++ toString titles_length ++ " items):\n\n"
  else if format_type = "feishu" then
    "**" ++ source_name ++ "** (" ++ toString titles_length ++ " items):\n\n"
  else if format_type = "dingtalk" then
    "**" ++ source_name ++ "** (" ++ toString titles_length ++ " items):\n\n"
  else ""

/-- first_news_line of the novelty section (src/main.py lines 3034-3059). -/
def new_first_line (format_type : String) (sd : SourceData) : String :=
  match sd.titles with
  | [] => ""
  | t0 :: _ => "  1. " ++ newTitleFormatted format_type t0 ++ "\n"

/-- A follow-up news line of the novelty section (src/main.py line 3104). -/
def new_news_line (format_type : String) (j : Nat) (td : TitleData) : String :=
  "  " ++ toString (j + 1) ++ ". " ++ newTitleFormatted format_type td ++ "\n"

/-- failed_header (src/main.py lines 3122-3132). -/
def failed_header_for (format_type feishu_sep : String) : String :=
  if format_type = "wework" then "\n\n\n\n⚠️ **Platforms Failed to Fetch:**\n\n"
  else if format_type = "telegram" then "\n\n⚠️ Platforms Failed to Fetch:\n\n"
  else if format_type = "ntfy" then "\n\n⚠️ **Platforms Failed to Fetch:**\n\n"
  else if format_type = "feishu" then
    "\n" ++ feishu_sep ++ "\n\n⚠️ **Platforms Failed to Fetch:**\n\n"
  else if format_type = "dingtalk" then "\n---\n\n⚠️ **Platforms Failed to Fetch:**\n\n"
  else ""

/-- failed_line (src/main.py lines 3148-3153). -/
def failed_line_for (format_type id_value : String) : String :=
  if format_type = "feishu" then "  • <font color='red'>" ++ id_value ++ "</font>\n"
  else if format_type = "dingtalk" then "  • **" ++ id_value ++ "**\n"
  else "  • " ++ id_value ++ "\n"

/-- The no-content notice (src/main.py lines 2791-2797). -/
def notice_content (mode : String) : String :=
  let mode_text :=
    if mode = "incremental" then "No new matching trending keywords in incremental mode"
    else if mode = "current" then "No matching trending keywords in current ranking mode"
    else "No matching trending keywords"
  "📭 " ++ mode_text ++ "\n\n"

/-- The running accumulation state of the batch splitter: the emitted
batches, the current batch text, and the current_batch_has_content flag. -/
structure SplitState where
  batches : List String
  current_batch : String
  has_content : Bool
deriving DecidableEq, Repr

/-- The emit pattern: append the footer and close the current batch when
it has content. -/
def flushIf (st : SplitState) (footer : String) : List String :=
  if st.has_content then st.batches ++ [st.current_batch ++ footer] else st.batches

/-- The repeated append-or-overflow pattern of split_content_into_batches
(for example src/main.py lines 2907-2924): test the current batch plus
the unit plus the footer against max_bytes; on overflow close the current
batch and seed a fresh one with the pending unit, otherwise append. -/
def appendOrSeed (max_bytes : Nat) (footer seed unit : String)
    (st : SplitState) : SplitState :=
  let test_content := st.current_batch ++ unit
  if max_bytes ≤ byteLen test_content + byteLen footer then
    { batches := flushIf st footer, current_batch := seed, has_content := true }
  else
    { st with current_batch := test_content, has_content := true }

/-- The separator step (src/main.py lines 2983-2988): the separator is
appended only when it still fits, and otherwise dropped. -/
def sep_step (max_bytes : Nat) (footer sep : String) (st : SplitState) : SplitState :=
  let test_content := st.current_batch ++ sep
  if byteLen test_content + byteLen footer < max_bytes then
    { st with current_batch := test_content }
  else st

/-- Processing of one stat group (src/main.py lines 2821-2988): the
atomic word_header plus first line unit, the remaining lines one by one,
and the inter-group separator for all but the last group. -/
def process_stat (format_type feishu_sep : String) (max_bytes : Nat)
    (bh sh footer : String) (total_count : Nat) (st : SplitState)
    (istat : Nat × Stat) : SplitState :=
  let i := istat.1
  let stat := istat.2
  let wh := word_header_of format_type total_count i stat
  let unit := wh ++ stats_first_line format_type stat
  let st := appendOrSeed max_bytes footer (bh ++ sh ++ unit) unit st
  let st := ((stat.titles.drop 1).enumFrom 1).foldl
    (fun s jtd =>
      let line := stats_news_line format_type stat.titles.length jtd.1 jtd.2
      appendOrSeed max_bytes footer (bh ++ sh ++ wh ++ line) line s)
    st
  if i < total_count - 1 then
    sep_step max_bytes footer (separator_for format_type feishu_sep) st
  else st

/-- Processing of one novelty source (src/main.py lines 3020-3119): the
atomic source_header plus first line unit, the remaining lines, and the
unconditional trailing newline of line 3119. -/
def process_source (format_type : String) (max_bytes : Nat)
    (bh nh footer : String) (st : SplitState) (sd : SourceData) : SplitState :=
  let srch := source_header_for format_type sd.source_name sd.titles.length
  let unit := srch ++ new_first_line format_type sd
  let st := appendOrSeed max_bytes footer (bh ++ nh ++ unit) unit st
  let st := ((sd.titles.drop 1).enumFrom 1).foldl
    (fun s jtd =>
      let line := new_news_line format_type jtd.1 jtd.2
      appendOrSeed max_bytes footer (bh ++ nh ++ srch ++ line) line s)
    st
  { st with current_batch := st.current_batch ++ "\n" }

/-- The keyword-stats section of the splitter (src/main.py lines
2802-2988): nothing when there are no stats, otherwise the stats header
step followed by each stat group. -/
def stats_stage (format_type feishu_sep : String) (max_bytes : Nat)
    (bh sh footer : String) (stats : List Stat) (st0 : SplitState) : SplitState :=
  if stats.isEmpty then st0
  else
    stats.enum.foldl
      (process_stat format_type feishu_sep max_bytes bh sh footer stats.length)
      (appendOrSeed max_bytes footer (bh ++ sh) sh st0)

/-- The novelty section of the splitter (src/main.py lines 2990-3119). -/
def new_stage (format_type : String) (max_bytes : Nat) (bh nh footer : String)
    (new_titles : List SourceData) (st1 : SplitState) : SplitState :=
  if new_titles.isEmpty then st1
  else
    new_titles.foldl (process_source format_type max_bytes bh nh footer)
      (appendOrSeed max_bytes footer (bh ++ nh) nh st1)

/-- The failed-sources section of the splitter (src/main.py lines
3121-3166). -/
def failed_stage (format_type : String) (max_bytes : Nat) (bh fh footer : String)
    (failed_ids : List String) (st2 : SplitState) : SplitState :=
  if failed_ids.isEmpty then st2
  else
    failed_ids.foldl
      (fun s idv =>
        appendOrSeed max_bytes footer (bh ++ fh ++ failed_line_for format_type idv)
          (failed_line_for format_type idv) s)
      (appendOrSeed max_bytes footer (bh ++ fh) fh st2)

/-- split_content_into_batches (src/main.py lines 2708-3172).  max_bytes
is explicit, the Beijing timestamp is the preformatted now_str, and the
configured feishu separator is feishu_sep. -/
def split_content_into_batches (report : ReportData) (format_type : String)
    (update_info : Option UpdateInfo) (max_bytes : Nat) (mode : String)
    (now_str feishu_sep : String) : List String :=
  let bh := base_header_for format_type (total_titles_of report.stats) now_str
  let footer := base_footer_for format_type now_str update_info
  let sh := stats_header_for format_type (!report.stats.isEmpty)
  let nh := new_header_for format_type feishu_sep report.total_new_count
  let fh := failed_header_for format_type feishu_sep
  if report.stats.isEmpty ∧ report.new_titles.isEmpty ∧ report.failed_ids.isEmpty then
    [bh ++ notice_content mode ++ footer]
  else
    flushIf
      (failed_stage format_type max_bytes bh fh footer report.failed_ids
        (new_stage format_type max_bytes bh nh footer report.new_titles
          (stats_stage format_type feishu_sep max_bytes bh sh footer report.stats
            ⟨[], bh, false⟩)))
      footer

/-- The seed strings that the splitter can install as a fresh
current_batch after an overflow (the seed arguments of every appendOrSeed
call above, plus the no-content notice): every emitted batch is either
within the byte budget or one of these seeds, possibly with one trailing
newline, plus the footer. -/
def seed_strings (report : ReportData) (format_type : String)
    (mode now_str feishu_sep : String) : List String :=
  let bh := base_header_for format_type (total_titles_of report.stats) now_str
  let sh := stats_header_for format_type (!report.stats.isEmpty)
  let nh := new_header_for format_type feishu_sep report.total_new_count
  let fh := failed_header_for format_type feishu_sep
  [bh ++ notice_content mode, bh ++ sh, bh ++ nh, bh ++ fh]
    ++ (report.stats.enum.map fun istat =>
        bh ++ sh ++ (word_header_of format_type report.stats.length istat.1 istat.2
          ++ stats_first_line format_type istat.2))
    ++ (report.stats.enum.map fun istat =>
        ((istat.2.titles.drop 1).enumFrom 1).map fun jtd =>
          bh ++ sh ++ word_header_of format_type report.stats.length istat.1 istat.2
            ++ stats_news_line format_type istat.2.titles.length jtd.1 jtd.2).flatten
    ++ (report.new_titles.map fun sd =>
        bh ++ nh ++ (source_header_for format_type sd.source_name sd.titles.length
          ++ new_first_line format_type sd))
    ++ (report.new_titles.map fun sd =>
        ((sd.titles.drop 1).enumFrom 1).map fun jtd =>
          bh ++ nh ++ source_header_for format_type sd.source_name sd.titles.length
            ++ new_news_line format_type jtd.1 jtd.2).flatten
    ++ (report.failed_ids.map fun idv =>
        bh ++ fh ++ failed_line_for format_type idv)

/-- The batch budget property the amended byte-bound claim states: a
batch is within the budget, or it is exactly one pending overflow seed
(possibly with the one unconditional trailing newline of the novelty
loop) plus the footer. -/
def goodBatch (max_bytes : Nat) (footer : String) (seeds : List String)
    (b : String) : Prop :=
  byteLen b ≤ max_bytes ∨ ∃ s ∈ seeds, b = s ++ footer ∨ b = s ++ "\n" ++ footer

/-- Invariant of the current batch right after a checked append: either
strictly within budget with the footer, or exactly a pending seed. -/
def curTight (max_bytes : Nat) (footer : String) (seeds : List String)
    (cur : String) : Prop :=
  byteLen cur + byteLen footer < max_bytes ∨ cur ∈ seeds

/-- Weakened current-batch invariant after the unconditional newline of
the novelty loop. -/
def curWeak (max_bytes : Nat) (footer : String) (seeds : List String)
    (cur : String) : Prop :=
  byteLen cur + byteLen footer ≤ max_bytes ∨ cur ∈ seeds ∨
    ∃ s ∈ seeds, cur = s ++ "\n"

/-- Splitter state invariant, tight form. -/
def InvT (max_bytes : Nat) (footer : String) (seeds : List String)
    (st : SplitState) : Prop :=
  (∀ b ∈ st.batches, goodBatch max_bytes footer seeds b) ∧
  (st.has_content = true → curTight max_bytes footer seeds st.current_batch)

/-- Splitter state invariant, weak form. -/
def InvW (max_bytes : Nat) (footer : String) (seeds : List String)
    (st : SplitState) : Prop :=
  (∀ b ∈ st.batches, goodBatch max_bytes footer seeds b) ∧
  (st.has_content = true → curWeak max_bytes footer seeds st.current_batch)

/-- An atomic unit (or any chunk) appears contiguously in an emitted
batch or in the still-open current batch. -/
def unitSomewhere (u : String) (st : SplitState) : Prop :=
  (∃ b ∈ st.batches, u.data <:+: b.data) ∨
  (u.data <:+: st.current_batch.data ∧ st.has_content = true)

/-! ## Theorems -/

/-! ### Generic helper lemmas -/

theorem byteLen_append (a b : String) : byteLen (a ++ b) = byteLen a + byteLen b := by
  simp [byteLen, String.data_append]

theorem foldl_preserve {α β : Type _} (P : β → Prop) {f : β → α → β} :
    ∀ (l : List α), (∀ x ∈ l, ∀ s, P s → P (f s x)) → ∀ b, P b → P (l.foldl f b) := by
  intro l
  induction l with
  | nil => intro _ b hb; exact hb
  | cons x xs ih =>
    intro h b hb
    exact ih (fun y hy s hs => h y (List.mem_cons_of_mem x hy) s hs) (f b x)
      (h x (List.mem_cons_self x xs) b hb)

theorem foldl_estab {α β : Type _} (P : β → Prop) {f : β → α → β} :
    ∀ (l : List α) (x : α), x ∈ l →
      (∀ y ∈ l, ∀ s, P s → P (f s y)) →
      (∀ s, P (f s x)) →
      ∀ b, P (l.foldl f b) := by
  intro l
  induction l with
  | nil => intro x hx; exact absurd hx (List.not_mem_nil x)
  | cons y ys ih =>
    intro x hx hstep hinit b
    rcases List.mem_cons.1 hx with rfl | hx'
    · exact foldl_preserve P ys
        (fun z hz s hs => hstep z (List.mem_cons_of_mem _ hz) s hs) (f b x) (hinit b)
    · exact ih x hx'
        (fun z hz s hs => hstep z (List.mem_cons_of_mem _ hz) s hs) hinit (f b y)

/-! ### Association list lemmas -/

theorem lookupA_setA_self {β : Type} (m : AList β) (k : String) (v : β) :
    lookupA (setA m k v) k = some v := by
  induction m with
  | nil => simp [setA, lookupA]
  | cons p rest ih =>
    by_cases h : p.1 = k
    · simp [setA, h, lookupA]
    · simp [setA, h, lookupA, ih]

theorem lookupA_setA_ne {β : Type} (m : AList β) (k k' : String) (v : β)
    (h : k ≠ k') : lookupA (setA m k v) k' = lookupA m k' := by
  induction m with
  | nil => simp [setA, lookupA, h]
  | cons p rest ih =>
    by_cases hp : p.1 = k
    · simp [setA, hp, lookupA, h]
    · simp only [setA, hp, if_false, lookupA]
      by_cases hp' : p.1 = k'
      · simp [hp']
      · simp [hp', ih]

theorem lookupA_updateA_self {β : Type} (m : AList β) (k : String) (f : β → β) :
    lookupA (updateA m k f) k = (lookupA m k).map f := by
  induction m with
  | nil => simp [updateA, lookupA]
  | cons p rest ih =>
    by_cases h : p.1 = k
    · simp [updateA, h, lookupA]
    · simp [updateA, h, lookupA, ih]

theorem lookupA_updateA_ne {β : Type} (m : AList β) (k k' : String) (f : β → β)
    (h : k ≠ k') : lookupA (updateA m k f) k' = lookupA m k' := by
  induction m with
  | nil => simp [updateA, lookupA]
  | cons p rest ih =>
    by_cases hp : p.1 = k
    · simp [updateA, hp, lookupA, h]
    · simp only [updateA, hp, if_false, lookupA]
      by_cases hp' : p.1 = k'
      · simp [hp']
      · simp [hp', ih]

theorem lookupA_eq_none_of_not_mem {β : Type} :
    ∀ (m : AList β) (k : String), k ∉ m.map Prod.fst → lookupA m k = none
  | [], _, _ => rfl
  | p :: rest, k, h => by
    have hne : p.1 ≠ k := by
      intro he
      exact h (by simp [he])
    simp only [lookupA, hne, if_false]
    exact lookupA_eq_none_of_not_mem rest k fun hm => h (List.mem_cons_of_mem _ hm)

theorem lookupA_isSome_setA {β : Type} (m : AList β) (k k' : String) (v : β) :
    (lookupA (setA m k v) k').isSome =
      (if k = k' then true else (lookupA m k').isSome) := by
  by_cases h : k = k'
  · subst h; simp [lookupA_setA_self]
  · simp [h, lookupA_setA_ne m k k' v h]

/-! ### merge_ranks lemmas -/

theorem merge_ranks_pre : ∀ (ranks acc : List Nat), acc <+: merge_ranks acc ranks
  | [], acc => by simp [merge_ranks]
  | r :: rs, acc => by
    have step : acc <+: (if r ∈ acc then acc else acc ++ [r]) := by
      by_cases h : r ∈ acc
      · simp [h]
      · simp [h]
    calc acc <+: (if r ∈ acc then acc else acc ++ [r]) := step
      _ <+: merge_ranks (if r ∈ acc then acc else acc ++ [r]) rs := merge_ranks_pre rs _
      _ = merge_ranks acc (r :: rs) := by
          simp only [merge_ranks, List.foldl_cons]

theorem merge_ranks_nodup : ∀ (ranks acc : List Nat), acc.Nodup →
    (merge_ranks acc ranks).Nodup
  | [], acc, h => by simpa [merge_ranks] using h
  | r :: rs, acc, h => by
    have hstep : (if r ∈ acc then acc else acc ++ [r]).Nodup := by
      by_cases hr : r ∈ acc
      · simpa [hr] using h
      · simp only [hr, if_false]
        rw [List.nodup_append]
        refine ⟨h, List.nodup_singleton r, ?_⟩
        intro a ha hamem
        rw [List.mem_singleton] at hamem
        exact hr (hamem ▸ ha)
    have := merge_ranks_nodup rs (if r ∈ acc then acc else acc ++ [r]) hstep
    simpa only [merge_ranks, List.foldl_cons] using this

theorem merge_ranks_mem_of_mem_acc : ∀ (ranks acc : List Nat) (x : Nat),
    x ∈ acc → x ∈ merge_ranks acc ranks := by
  intro ranks acc x hx
  exact (merge_ranks_pre ranks acc).subset hx

theorem merge_ranks_mem : ∀ (ranks acc : List Nat) (x : Nat), x ∈ ranks →
    x ∈ merge_ranks acc ranks
  | [], _, _, hx => absurd hx (List.not_mem_nil _)
  | r :: rs, acc, x, hx => by
    rcases List.mem_cons.1 hx with rfl | hx'
    · have hr : x ∈ (if x ∈ acc then acc else acc ++ [x]) := by
        by_cases h : x ∈ acc
        · rw [if_pos h]; exact h
        · simp [h]
      have := merge_ranks_mem_of_mem_acc rs (if x ∈ acc then acc else acc ++ [x]) x hr
      simpa only [merge_ranks, List.foldl_cons] using this
    · have := merge_ranks_mem rs (if r ∈ acc then acc else acc ++ [r]) x hx'
      simpa only [merge_ranks, List.foldl_cons] using this

theorem merge_ranks_absorb : ∀ (ranks acc : List Nat),
    (∀ r ∈ ranks, r ∈ acc) → merge_ranks acc ranks = acc
  | [], acc, _ => by simp [merge_ranks]
  | r :: rs, acc, h => by
    have hr : r ∈ acc := h r (List.mem_cons_self r rs)
    have := merge_ranks_absorb rs acc fun x hx => h x (List.mem_cons_of_mem r hx)
    simpa only [merge_ranks, List.foldl_cons, hr, if_true] using this

theorem dedup_keep_order_eq_self_aux : ∀ (l acc : List Nat), l.Nodup →
    (∀ x ∈ l, x ∉ acc) →
    l.foldl (fun acc r => if r ∈ acc then acc else acc ++ [r]) acc = acc ++ l
  | [], acc, _, _ => by simp
  | r :: rs, acc, hnd, hdisj => by
    have hr : r ∉ acc := hdisj r (List.mem_cons_self r rs)
    have hnd' := (List.nodup_cons.1 hnd).2
    have hrn := (List.nodup_cons.1 hnd).1
    have := dedup_keep_order_eq_self_aux rs (acc ++ [r]) hnd'
      (fun x hx => by
        intro hmem
        rcases List.mem_append.1 hmem with hmem | hmem
        · exact hdisj x (List.mem_cons_of_mem r hx) hmem
        · rw [List.mem_singleton] at hmem
          exact hrn (hmem ▸ hx))
    simp only [List.foldl_cons, hr, if_false] at *
    rw [this, List.append_assoc]
    simp

theorem dedup_keep_order_eq_self (l : List Nat) (h : l.Nodup) :
    dedup_keep_order l = l := by
  simpa using dedup_keep_order_eq_self_aux l [] h (by simp)

/-! ### The ledger merge: characterization of merge_title -/

theorem merge_title_spec (s t : String) (obs : Observation) (time : String)
    (st : LedgerState) (sm : AList Observation) (im : AList Info)
    (hs : lookupA st.all_results s = some sm)
    (hti : lookupA st.title_info s = some im) :
    (∀ s', s' ≠ s →
      lookupA (merge_title s t obs time st).all_results s' = lookupA st.all_results s' ∧
      lookupA (merge_title s t obs time st).title_info s' = lookupA st.title_info s') ∧
    (∀ t', t' ≠ t →
      obsAt (merge_title s t obs time st) s t' = obsAt st s t' ∧
      lookupInfo (merge_title s t obs time st) s t' = lookupInfo st s t') ∧
    (lookupA (merge_title s t obs time st).all_results s).isSome = true ∧
    (lookupA (merge_title s t obs time st).title_info s).isSome = true ∧
    (match lookupA sm t with
     | none =>
        obsAt (merge_title s t obs time st) s t = some obs ∧
        lookupInfo (merge_title s t obs time st) s t = some (freshInfo obs time)
     | some existing =>
        obsAt (merge_title s t obs time st) s t = some (mergedObs existing obs) ∧
        lookupInfo (merge_title s t obs time st) s t = (lookupA im t).map
          (fun info => stepInfo info (merge_ranks existing.ranks obs.ranks) obs time)) := by
  cases hmt : lookupA sm t with
  | none =>
    refine ⟨?_, ?_, ?_, ?_, ?_⟩
    · intro s' hne
      simp [merge_title, hs, hmt, lookupA_setA_ne _ s s' _ (Ne.symm hne),
        lookupA_updateA_ne _ s s' _ (Ne.symm hne)]
    · intro t' hne
      constructor
      · simp [merge_title, hs, hmt, obsAt, lookupA_setA_self,
          lookupA_setA_ne _ t t' _ (Ne.symm hne)]
      · simp [merge_title, hs, hmt, lookupInfo, lookupA_updateA_self, hti,
          lookupA_setA_ne _ t t' _ (Ne.symm hne)]
    · simp [merge_title, hs, hmt, lookupA_setA_self]
    · simp [merge_title, hs, hmt, lookupA_updateA_self, hti]
    · simp only [hmt]
      constructor
      · simp [merge_title, hs, hmt, obsAt, lookupA_setA_self]
      · simp [merge_title, hs, hmt, lookupInfo, lookupA_updateA_self, hti,
          lookupA_setA_self]
  | some existing =>
    refine ⟨?_, ?_, ?_, ?_, ?_⟩
    · intro s' hne
      simp [merge_title, hs, hmt, lookupA_setA_ne _ s s' _ (Ne.symm hne),
        lookupA_updateA_ne _ s s' _ (Ne.symm hne)]
    · intro t' hne
      constructor
      · simp [merge_title, hs, hmt, obsAt, lookupA_setA_self,
          lookupA_setA_ne _ t t' _ (Ne.symm hne)]
      · simp [merge_title, hs, hmt, lookupInfo, lookupA_updateA_self, hti,
          lookupA_updateA_ne _ t t' _ (Ne.symm hne)]
    · simp [merge_title, hs, hmt, lookupA_setA_self]
    · simp [merge_title, hs, hmt, lookupA_updateA_self, hti]
    · simp only [hmt]
      constructor
      · simp [merge_title, hs, hmt, obsAt, lookupA_setA_self]
      · simp [merge_title, hs, hmt, lookupInfo, lookupA_updateA_self, hti,
          lookupA_updateA_self]

theorem WF_empty : WF ⟨[], []⟩ := by
  constructor
  · intro s; simp [lookupA]
  · intro s t; simp [lookupInfo, obsAt, lookupA, agreeO]

theorem merge_title_WF (s t : String) (obs : Observation) (time : String)
    (st : LedgerState) (h : WF st) : WF (merge_title s t obs time st) := by
  cases hs : lookupA st.all_results s with
  | none =>
    simpa [merge_title, hs] using h
  | some sm =>
    have hti : ∃ im, lookupA st.title_info s = some im := by
      have := h.1 s
      rw [hs] at this
      simp only [Option.isSome_some] at this
      exact Option.isSome_iff_exists.1 this
    obtain ⟨im, hti⟩ := hti
    obtain ⟨hsrc, htit, hars, htis, hmain⟩ := merge_title_spec s t obs time st sm im hs hti
    constructor
    · intro s'
      by_cases hne : s' = s
      · subst hne
        rw [hars, htis]
      · rw [(hsrc s' hne).1, (hsrc s' hne).2]
        exact h.1 s'
    · intro s' t'
      by_cases hnes : s' = s
      · subst hnes
        by_cases hnet : t' = t
        · subst hnet
          cases hmt : lookupA sm t' with
          | none =>
            rw [hmt] at hmain
            rw [hmain.1, hmain.2]
            simp [agreeO, freshInfo]
          | some existing =>
            rw [hmt] at hmain
            have hagree := h.2 s' t'
            have hobs : obsAt st s' t' = some existing := by
              simp [obsAt, hs, hmt]
            have hinfo : lookupInfo st s' t' = lookupA im t' := by
              simp [lookupInfo, hti]
            rw [hobs, hinfo] at hagree
            cases him : lookupA im t' with
            | none => rw [him] at hagree; exact absurd hagree (by simp [agreeO])
            | some info =>
              rw [him] at hagree
              obtain ⟨hr, hu, hm, hsum⟩ := hagree
              rw [hmain.1, hmain.2, him]
              simp [agreeO, stepInfo, mergedObs, orElseStr, hr, hu, hm, hsum]
        · rw [(htit t' hnet).1, (htit t' hnet).2]
          exact h.2 s' t'
      · have h1 := (hsrc s' hnes).1
        have h2 := (hsrc s' hnes).2
        have ho : obsAt (merge_title s t obs time st) s' t' = obsAt st s' t' := by
          simp [obsAt, h1]
        have hi : lookupInfo (merge_title s t obs time st) s' t' = lookupInfo st s' t' := by
          simp [lookupInfo, h2]
        rw [ho, hi]
        exact h.2 s' t'

theorem WF_title_info_isSome (st : LedgerState) (h : WF st) (s : String)
    (hsrc : (lookupA st.all_results s).isSome = true) :
    ∃ im, lookupA st.title_info s = some im := by
  have := h.1 s
  rw [hsrc] at this
  exact Option.isSome_iff_exists.1 this

theorem WF_obs_none (st : LedgerState) (h : WF st) (s t : String)
    (hobs : obsAt st s t = none) : lookupInfo st s t = none := by
  have := h.2 s t
  rw [hobs] at this
  cases hli : lookupInfo st s t with
  | none => rfl
  | some info => rw [hli] at this; exact absurd this (by simp [agreeO])

theorem WF_obs_some (st : LedgerState) (h : WF st) (s t : String)
    (existing : Observation) (hobs : obsAt st s t = some existing) :
    ∃ info, lookupInfo st s t = some info ∧
      existing = ⟨info.ranks, info.url, info.mobileUrl, info.summary⟩ := by
  have := h.2 s t
  rw [hobs] at this
  cases hli : lookupInfo st s t with
  | none => rw [hli] at this; exact absurd this (by simp [agreeO])
  | some info =>
    rw [hli] at this
    obtain ⟨hr, hu, hm, hsum⟩ := this
    exact ⟨info, rfl, by cases existing; simp_all⟩

theorem fold_merge_spec (s time : String) :
    ∀ (td : AList Observation) (st : LedgerState),
      WF st → (lookupA st.all_results s).isSome = true →
      (td.map Prod.fst).Nodup →
      WF (td.foldl (fun acc tv => merge_title s tv.1 tv.2 time acc) st) ∧
      (lookupA (td.foldl (fun acc tv => merge_title s tv.1 tv.2 time acc) st).all_results
          s).isSome = true ∧
      (∀ s' t', s' ≠ s →
        lookupInfo (td.foldl (fun acc tv => merge_title s tv.1 tv.2 time acc) st) s' t' =
          lookupInfo st s' t' ∧
        obsAt (td.foldl (fun acc tv => merge_title s tv.1 tv.2 time acc) st) s' t' =
          obsAt st s' t') ∧
      (∀ t', lookupA td t' = none →
        lookupInfo (td.foldl (fun acc tv => merge_title s tv.1 tv.2 time acc) st) s t' =
          lookupInfo st s t' ∧
        obsAt (td.foldl (fun acc tv => merge_title s tv.1 tv.2 time acc) st) s t' =
          obsAt st s t') ∧
      (∀ t' obs, lookupA td t' = some obs →
        (lookupInfo st s t' = none →
          lookupInfo (td.foldl (fun acc tv => merge_title s tv.1 tv.2 time acc) st) s t' =
            some (freshInfo obs time) ∧
          obsAt (td.foldl (fun acc tv => merge_title s tv.1 tv.2 time acc) st) s t' =
            some obs) ∧
        (∀ info, lookupInfo st s t' = some info →
          lookupInfo (td.foldl (fun acc tv => merge_title s tv.1 tv.2 time acc) st) s t' =
            some (stepInfo info (merge_ranks info.ranks obs.ranks) obs time) ∧
          obsAt (td.foldl (fun acc tv => merge_title s tv.1 tv.2 time acc) st) s t' =
            some (mergedObs ⟨info.ranks, info.url, info.mobileUrl, info.summary⟩ obs)))
  | [], st, hwf, hsrc, _ => by
    refine ⟨hwf, hsrc, ?_, ?_, ?_⟩
    · intro s' t' _; exact ⟨rfl, rfl⟩
    · intro t' _; exact ⟨rfl, rfl⟩
    · intro t' obs hlk; exact absurd hlk (by simp [lookupA])
  | (t0, o0) :: rest, st, hwf, hsrc, hnd => by
    obtain ⟨sm, hsm⟩ := Option.isSome_iff_exists.1 hsrc
    obtain ⟨im, him⟩ := WF_title_info_isSome st hwf s hsrc
    obtain ⟨hsrcn, htitn, hars, htis, hmain⟩ :=
      merge_title_spec s t0 o0 time st sm im hsm him
    have hwf1 : WF (merge_title s t0 o0 time st) := merge_title_WF s t0 o0 time st hwf
    have hnd0 : t0 ∉ rest.map Prod.fst := (List.nodup_cons.1 hnd).1
    have hndr : (rest.map Prod.fst).Nodup := (List.nodup_cons.1 hnd).2
    obtain ⟨ihwf, ihsrc, ihother, ihnone, ihsome⟩ :=
      fold_merge_spec s time rest (merge_title s t0 o0 time st) hwf1 hars hndr
    have hstep :
        ((t0, o0) :: rest).foldl (fun acc tv => merge_title s tv.1 tv.2 time acc) st =
        rest.foldl (fun acc tv => merge_title s tv.1 tv.2 time acc)
          (merge_title s t0 o0 time st) := by
      simp [List.foldl_cons]
    rw [hstep]
    have hrest_t0 : lookupA rest t0 = none :=
      lookupA_eq_none_of_not_mem rest t0 hnd0
    have hmt1_other : ∀ t', t' ≠ t0 →
        lookupInfo (merge_title s t0 o0 time st) s t' = lookupInfo st s t' ∧
        obsAt (merge_title s t0 o0 time st) s t' = obsAt st s t' := by
      intro t' hne
      exact ⟨(htitn t' hne).2, (htitn t' hne).1⟩
    refine ⟨ihwf, ihsrc, ?_, ?_, ?_⟩
    · intro s' t' hne
      have h1 := ihother s' t' hne
      have h2s := (hsrcn s' hne).1
      have h2i := (hsrcn s' hne).2
      constructor
      · rw [h1.1]; simp [lookupInfo, h2i]
      · rw [h1.2]; simp [obsAt, h2s]
    · intro t' hnone
      have hne : t' ≠ t0 := by
        intro he
        rw [he] at hnone
        simp [lookupA] at hnone
      have hrest : lookupA rest t' = none := by
        have := hnone
        simpa [lookupA, Ne.symm hne] using this
      have h1 := ihnone t' hrest
      have h2 := hmt1_other t' hne
      exact ⟨h1.1.trans h2.1, h1.2.trans h2.2⟩
    · intro t' obs hlk
      by_cases he : t' = t0
      · subst he
        have hobs : o0 = obs := by
          simpa [lookupA] using hlk
        subst hobs
        have hfix := ihnone t' hrest_t0
        constructor
        · intro hnoneinfo
          have hobsnone : obsAt st s t' = none := by
            cases hobst : obsAt st s t' with
            | none => rfl
            | some ex =>
              obtain ⟨info, hinfo, _⟩ := WF_obs_some st hwf s t' ex hobst
              rw [hinfo] at hnoneinfo
              exact absurd hnoneinfo (by simp)
          have hsmt : lookupA sm t' = none := by
            have : obsAt st s t' = lookupA sm t' := by simp [obsAt, hsm]
            rw [this] at hobsnone
            exact hobsnone
          rw [hsmt] at hmain
          exact ⟨hfix.1.trans hmain.2, hfix.2.trans hmain.1⟩
        · intro info hinfo
          have hagree := hwf.2 s t'
          cases hobst : obsAt st s t' with
          | none =>
            have := WF_obs_none st hwf s t' hobst
            rw [this] at hinfo
            exact absurd hinfo (by simp)
          | some existing =>
            obtain ⟨info2, hinfo2, hex⟩ := WF_obs_some st hwf s t' existing hobst
            rw [hinfo] at hinfo2
            have hinfoeq : info = info2 := by injection hinfo2
            subst hinfoeq
            have hsmt : lookupA sm t' = some existing := by
              have hoa : obsAt st s t' = lookupA sm t' := by simp [obsAt, hsm]
              rw [hoa] at hobst
              exact hobst
            rw [hsmt] at hmain
            have himt : lookupA im t' = some info := by
              have hli : lookupInfo st s t' = lookupA im t' := by
                simp [lookupInfo, him]
              rw [hli] at hinfo
              exact hinfo
            constructor
            · rw [hfix.1, hmain.2, himt, hex]
              rfl
            · rw [hfix.2, hmain.1, hex]
      · have hrest : lookupA rest t' = some obs := by
          simpa [lookupA, Ne.symm he] using hlk
        have h2 := hmt1_other t' he
        have h3 := ihsome t' obs hrest
        constructor
        · intro hnoneinfo
          exact h3.1 (h2.1.trans hnoneinfo)
        · intro info hinfo
          exact h3.2 info (h2.1.trans hinfo)

theorem lookupA_insert_fresh (time : String) :
    ∀ (td : AList Observation) (m : AList Info) (t' : String),
      (td.map Prod.fst).Nodup →
      lookupA (insert_fresh_infos td time m) t' =
        match lookupA td t' with
        | some obs => some (freshInfo obs time)
        | none => lookupA m t'
  | [], m, t', _ => by simp [insert_fresh_infos, lookupA]
  | (t0, o0) :: rest, m, t', hnd => by
    have hstep : insert_fresh_infos ((t0, o0) :: rest) time m =
        insert_fresh_infos rest time (setA m t0 (freshInfo o0 time)) := by
      simp [insert_fresh_infos, List.foldl_cons]
    rw [hstep]
    have hnd0 : t0 ∉ rest.map Prod.fst := (List.nodup_cons.1 hnd).1
    have hndr : (rest.map Prod.fst).Nodup := (List.nodup_cons.1 hnd).2
    rw [lookupA_insert_fresh time rest (setA m t0 (freshInfo o0 time)) t' hndr]
    by_cases he : t0 = t'
    · subst he
      rw [lookupA_eq_none_of_not_mem rest t0 hnd0]
      simp [lookupA, lookupA_setA_self]
    · simp only [lookupA, he, if_false]
      cases lookupA rest t' with
      | some obs => rfl
      | none => simp [lookupA_setA_ne m t0 t' _ he]

theorem psd_spec (s : String) (td : AList Observation) (time : String)
    (st : LedgerState) (hwf : WF st) (hnd : (td.map Prod.fst).Nodup) :
    WF (process_source_data s td time st) ∧
    (∀ s' t', s' ≠ s →
      lookupInfo (process_source_data s td time st) s' t' = lookupInfo st s' t' ∧
      obsAt (process_source_data s td time st) s' t' = obsAt st s' t') ∧
    (∀ t', lookupA td t' = none →
      lookupInfo (process_source_data s td time st) s t' = lookupInfo st s t' ∧
      obsAt (process_source_data s td time st) s t' = obsAt st s t') ∧
    (∀ t' obs, lookupA td t' = some obs →
      (lookupInfo st s t' = none →
        lookupInfo (process_source_data s td time st) s t' = some (freshInfo obs time) ∧
        obsAt (process_source_data s td time st) s t' = some obs) ∧
      (∀ info, lookupInfo st s t' = some info →
        lookupInfo (process_source_data s td time st) s t' =
          some (stepInfo info (merge_ranks info.ranks obs.ranks) obs time) ∧
        obsAt (process_source_data s td time st) s t' =
          some (mergedObs ⟨info.ranks, info.url, info.mobileUrl, info.summary⟩ obs))) := by
  cases hs : lookupA st.all_results s with
  | some sm =>
    have hred : process_source_data s td time st =
        td.foldl (fun acc tv => merge_title s tv.1 tv.2 time acc) st := by
      simp [process_source_data, hs]
    obtain ⟨a, _, c, d, e⟩ :=
      fold_merge_spec s time td st hwf (by rw [hs]; rfl) hnd
    rw [hred]
    exact ⟨a, c, d, e⟩
  | none =>
    have hti : lookupA st.title_info s = none := by
      have h1 := hwf.1 s
      rw [hs] at h1
      cases h2 : lookupA st.title_info s with
      | none => rfl
      | some im => rw [h2] at h1; simp at h1
    have hred : process_source_data s td time st =
        { all_results := setA st.all_results s td,
          title_info := setA st.title_info s (insert_fresh_infos td time []) } := by
      simp [process_source_data, hs, hti]
    have hinfo_none : ∀ t', lookupInfo st s t' = none := by
      intro t'; simp [lookupInfo, hti]
    have hobs_none : ∀ t', obsAt st s t' = none := by
      intro t'; simp [obsAt, hs]
    have hli : ∀ t', lookupInfo (process_source_data s td time st) s t' =
        match lookupA td t' with
        | some obs => some (freshInfo obs time)
        | none => none := by
      intro t'
      rw [hred]
      show (lookupA (setA st.title_info s (insert_fresh_infos td time [])) s).bind
          (fun m => lookupA m t') = _
      rw [lookupA_setA_self]
      show lookupA (insert_fresh_infos td time []) t' = _
      rw [lookupA_insert_fresh time td [] t' hnd]
      cases lookupA td t' with
      | some obs => rfl
      | none => simp [lookupA]
    have hoa : ∀ t', obsAt (process_source_data s td time st) s t' = lookupA td t' := by
      intro t'
      rw [hred]
      show (lookupA (setA st.all_results s td) s).bind (fun m => lookupA m t') = _
      rw [lookupA_setA_self]
      simp
    refine ⟨?_, ?_, ?_, ?_⟩
    · constructor
      · intro s'
        by_cases hne : s' = s
        · subst hne
          rw [hred]
          show (lookupA (setA st.title_info s' _) s').isSome =
            (lookupA (setA st.all_results s' _) s').isSome
          rw [lookupA_setA_self, lookupA_setA_self]
          rfl
        · rw [hred]
          show (lookupA (setA st.title_info s _) s').isSome =
            (lookupA (setA st.all_results s _) s').isSome
          rw [lookupA_setA_ne _ s s' _ (Ne.symm hne), lookupA_setA_ne _ s s' _ (Ne.symm hne)]
          exact hwf.1 s'
      · intro s' t'
        by_cases hne : s' = s
        · subst hne
          rw [hli t', hoa t']
          cases lookupA td t' with
          | some obs => simp [agreeO, freshInfo]
          | none => simp [agreeO]
        · have h1 : lookupInfo (process_source_data s td time st) s' t' =
              lookupInfo st s' t' := by
            rw [hred]
            show (lookupA (setA st.title_info s _) s').bind _ = _
            rw [lookupA_setA_ne _ s s' _ (Ne.symm hne)]
            rfl
          have h2 : obsAt (process_source_data s td time st) s' t' = obsAt st s' t' := by
            rw [hred]
            show (lookupA (setA st.all_results s _) s').bind _ = _
            rw [lookupA_setA_ne _ s s' _ (Ne.symm hne)]
            rfl
          rw [h1, h2]
          exact hwf.2 s' t'
    · intro s' t' hne
      constructor
      · rw [hred]
        show (lookupA (setA st.title_info s _) s').bind _ = _
        rw [lookupA_setA_ne _ s s' _ (Ne.symm hne)]
        rfl
      · rw [hred]
        show (lookupA (setA st.all_results s _) s').bind _ = _
        rw [lookupA_setA_ne _ s s' _ (Ne.symm hne)]
        rfl
    · intro t' hnone
      rw [hli t', hoa t', hnone, hinfo_none t', hobs_none t']
      exact ⟨rfl, rfl⟩
    · intro t' obs hsome
      constructor
      · intro _
        rw [hli t', hoa t', hsome]
        exact ⟨rfl, rfl⟩
      · intro info hinfo
        rw [hinfo_none t'] at hinfo
        exact absurd hinfo (by simp)

theorem snap_fold_spec (time : String) :
    ∀ (data : AList (AList Observation)) (st : LedgerState),
      WF st → (data.map Prod.fst).Nodup →
      (∀ sd ∈ data, (sd.2.map Prod.fst).Nodup) →
      WF (data.foldl (fun acc sd => process_source_data sd.1 sd.2 time acc) st) ∧
      (∀ s t', lookupA data s = none →
        lookupInfo (data.foldl (fun acc sd => process_source_data sd.1 sd.2 time acc) st) s t' =
          lookupInfo st s t' ∧
        obsAt (data.foldl (fun acc sd => process_source_data sd.1 sd.2 time acc) st) s t' =
          obsAt st s t') ∧
      (∀ s td, lookupA data s = some td →
        (∀ t', lookupA td t' = none →
          lookupInfo (data.foldl (fun acc sd => process_source_data sd.1 sd.2 time acc) st) s t' =
            lookupInfo st s t' ∧
          obsAt (data.foldl (fun acc sd => process_source_data sd.1 sd.2 time acc) st) s t' =
            obsAt st s t') ∧
        (∀ t' obs, lookupA td t' = some obs →
          (lookupInfo st s t' = none →
            lookupInfo (data.foldl (fun acc sd => process_source_data sd.1 sd.2 time acc) st) s t' =
              some (freshInfo obs time) ∧
            obsAt (data.foldl (fun acc sd => process_source_data sd.1 sd.2 time acc) st) s t' =
              some obs) ∧
          (∀ info, lookupInfo st s t' = some info →
            lookupInfo (data.foldl (fun acc sd => process_source_data sd.1 sd.2 time acc) st) s t' =
              some (stepInfo info (merge_ranks info.ranks obs.ranks) obs time) ∧
            obsAt (data.foldl (fun acc sd => process_source_data sd.1 sd.2 time acc) st) s t' =
              some (mergedObs ⟨info.ranks, info.url, info.mobileUrl, info.summary⟩ obs))))
  | [], st, hwf, _, _ => by
    refine ⟨hwf, ?_, ?_⟩
    · intro s t' _; exact ⟨rfl, rfl⟩
    · intro s td hlk; exact absurd hlk (by simp [lookupA])
  | (s0, td0) :: rest, st, hwf, hndS, hndT => by
    have hstep : ((s0, td0) :: rest).foldl
        (fun acc sd => process_source_data sd.1 sd.2 time acc) st =
        rest.foldl (fun acc sd => process_source_data sd.1 sd.2 time acc)
          (process_source_data s0 td0 time st) := by
      simp [List.foldl_cons]
    rw [hstep]
    have hnd0 : s0 ∉ rest.map Prod.fst := (List.nodup_cons.1 hndS).1
    have hndSr : (rest.map Prod.fst).Nodup := (List.nodup_cons.1 hndS).2
    have hndtd0 : (td0.map Prod.fst).Nodup :=
      hndT (s0, td0) (List.mem_cons_self _ _)
    obtain ⟨pwf, pother, pnone, psome⟩ := psd_spec s0 td0 time st hwf hndtd0
    obtain ⟨iwf, inone, isome⟩ :=
      snap_fold_spec time rest (process_source_data s0 td0 time st) pwf hndSr
        (fun sd hm => hndT sd (List.mem_cons_of_mem _ hm))
    have hrest_s0 : lookupA rest s0 = none :=
      lookupA_eq_none_of_not_mem rest s0 hnd0
    refine ⟨iwf, ?_, ?_⟩
    · intro s t' hlk
      have hne : s0 ≠ s := by
        intro he
        rw [he] at hlk
        simp [lookupA] at hlk
      have hrest : lookupA rest s = none := by
        simpa [lookupA, hne] using hlk
      have h1 := inone s t' hrest
      have h2 := pother s t' (Ne.symm hne)
      exact ⟨h1.1.trans h2.1, h1.2.trans h2.2⟩
    · intro s td hlk
      by_cases he : s0 = s
      · subst he
        have htd : td0 = td := by simpa [lookupA] using hlk
        subst htd
        constructor
        · intro t' hnone
          have h1 := (inone s0 t' hrest_s0).1
          have h2 := (inone s0 t' hrest_s0).2
          have h3 := pnone t' hnone
          exact ⟨h1.trans h3.1, h2.trans h3.2⟩
        · intro t' obs hsome
          constructor
          · intro hinone
            have h3 := (psome t' obs hsome).1 hinone
            exact ⟨(inone s0 t' hrest_s0).1.trans h3.1,
              (inone s0 t' hrest_s0).2.trans h3.2⟩
          · intro info hinfo
            have h3 := (psome t' obs hsome).2 info hinfo
            exact ⟨(inone s0 t' hrest_s0).1.trans h3.1,
              (inone s0 t' hrest_s0).2.trans h3.2⟩
      · have hrest : lookupA rest s = some td := by
          simpa [lookupA, he] using hlk
        obtain ⟨rnone, rsome⟩ := isome s td hrest
        constructor
        · intro t' hnone
          have h1 := rnone t' hnone
          have h2 := pother s t' (Ne.symm he)
          exact ⟨h1.1.trans h2.1, h1.2.trans h2.2⟩
        · intro t' obs hsome
          have h2 := pother s t' (Ne.symm he)
          constructor
          · intro hinone
            exact (rsome t' obs hsome).1 (h2.1.trans hinone)
          · intro info hinfo
            exact (rsome t' obs hsome).2 info (h2.1.trans hinfo)

theorem build_ledger_WF (snaps : List Snapshot)
    (h1 : ∀ sp ∈ snaps, (sp.data.map Prod.fst).Nodup)
    (h2 : ∀ sp ∈ snaps, ∀ sd ∈ sp.data, (sd.2.map Prod.fst).Nodup) :
    WF (build_ledger snaps) := by
  unfold build_ledger
  exact foldl_preserve WF snaps
    (fun sp hm st hw =>
      (snap_fold_spec sp.time_info sp.data st hw (h1 sp hm) (h2 sp hm)).1)
    ⟨[], []⟩ WF_empty

/-- One snapshot folded into a well-formed ledger evolves every existing
entry monotonically: the entry survives, its ranks list is extended by
appending only, its count grows by at most one, its first_time is kept,
and every already nonempty fill-once field is kept verbatim. -/
theorem snap_evolution (snap : Snapshot) (st : LedgerState) (hwf : WF st)
    (h3 : (snap.data.map Prod.fst).Nodup)
    (h4 : ∀ sd ∈ snap.data, (sd.2.map Prod.fst).Nodup) :
    ∀ s t info, lookupInfo st s t = some info →
      ∃ info', lookupInfo (process_snapshot st snap) s t = some info' ∧
        info.ranks <+: info'.ranks ∧
        info'.count ≤ info.count + 1 ∧
        info'.first_time = info.first_time ∧
        (info.url ≠ "" → info'.url = info.url) ∧
        (info.mobileUrl ≠ "" → info'.mobileUrl = info.mobileUrl) ∧
        (info.summary ≠ "" → info'.summary = info.summary) := by
  obtain ⟨_, hnone, hsome⟩ :=
    snap_fold_spec snap.time_info snap.data st hwf h3 h4
  intro s t info hinfo
  simp only [process_snapshot]
  cases hlk : lookupA snap.data s with
  | none =>
    refine ⟨info, ?_, List.prefix_rfl, Nat.le_succ _, rfl, fun _ => rfl,
      fun _ => rfl, fun _ => rfl⟩
    rw [(hnone s t hlk).1]
    exact hinfo
  | some td =>
    obtain ⟨tnone, tsome⟩ := hsome s td hlk
    cases hlt : lookupA td t with
    | none =>
      refine ⟨info, ?_, List.prefix_rfl, Nat.le_succ _, rfl, fun _ => rfl,
        fun _ => rfl, fun _ => rfl⟩
      rw [(tnone t hlt).1]
      exact hinfo
    | some obs =>
      have hstep := (tsome t obs hlt).2 info hinfo
      refine ⟨stepInfo info (merge_ranks info.ranks obs.ranks) obs snap.time_info,
        hstep.1, ?_, ?_, rfl, ?_, ?_, ?_⟩
      · exact merge_ranks_pre obs.ranks info.ranks
      · exact Nat.le_refl _
      · intro hne
        simp [stepInfo, hne]
      · intro hne
        simp [stepInfo, hne]
      · intro hne
        simp [stepInfo, hne]

theorem build_take_succ (snaps : List Snapshot) (k : Nat) (hk : k < snaps.length) :
    build_ledger (snaps.take (k + 1)) =
      process_snapshot (build_ledger (snaps.take k)) snaps[k] := by
  unfold build_ledger
  rw [List.take_succ, List.foldl_append]
  simp [List.getElem?_eq_getElem hk]

theorem build_take_stable (snaps : List Snapshot) (k : Nat)
    (hk : snaps.length ≤ k) : snaps.take k = snaps :=
  List.take_of_length_le hk

/-! ### Claim C9: fill-once monotonicity of url, mobileUrl and summary -/

/-- Claim C9: across the chronological fold of the parsed snapshots of a
day (with the per-dict key lists duplicate free, as Python dicts
guarantee), once a ledger entry has a nonempty url, mobileUrl or summary
at some stage k, the entry still exists at every later stage m with that
field unchanged: later empty values never erase it and later nonempty
values never replace it. -/
theorem C9_fill_once (snaps : List Snapshot)
    (h1 : ∀ sp ∈ snaps, (sp.data.map Prod.fst).Nodup)
    (h2 : ∀ sp ∈ snaps, ∀ sd ∈ sp.data, (sd.2.map Prod.fst).Nodup) :
    ∀ k m, k ≤ m → ∀ s t info,
      lookupInfo (build_ledger (snaps.take k)) s t = some info →
      ∃ info', lookupInfo (build_ledger (snaps.take m)) s t = some info' ∧
        (info.url ≠ "" → info'.url = info.url) ∧
        (info.mobileUrl ≠ "" → info'.mobileUrl = info.mobileUrl) ∧
        (info.summary ≠ "" → info'.summary = info.summary) := by
  intro k m
  induction m with
  | zero =>
    intro hk s t info hinfo
    have hk0 : k = 0 := Nat.le_zero.1 hk
    subst hk0
    exact ⟨info, hinfo, fun _ => rfl, fun _ => rfl, fun _ => rfl⟩
  | succ m ih =>
    intro hkm s t info hinfo
    by_cases hk : k = m + 1
    · subst hk
      exact ⟨info, hinfo, fun _ => rfl, fun _ => rfl, fun _ => rfl⟩
    · have hk' : k ≤ m := Nat.lt_succ_iff.1 (lt_of_le_of_ne hkm hk)
      obtain ⟨info1, hinfo1, hu1, hm1, hs1⟩ := ih hk' s t info hinfo
      by_cases hlen : m < snaps.length
      · rw [build_take_succ snaps m hlen]
        have hwfm : WF (build_ledger (snaps.take m)) :=
          build_ledger_WF _ (fun sp hm => h1 sp (List.take_subset _ _ hm))
            (fun sp hm => h2 sp (List.take_subset _ _ hm))
        have hmem : snaps[m] ∈ snaps := List.getElem_mem hlen
        obtain ⟨info2, hinfo2, _, _, _, hu2, hm2, hs2⟩ :=
          snap_evolution snaps[m] (build_ledger (snaps.take m)) hwfm
            (h1 _ hmem) (h2 _ hmem) s t info1 hinfo1
        refine ⟨info2, hinfo2, ?_, ?_, ?_⟩
        · intro hne
          rw [hu2 (by rw [hu1 hne]; exact hne), hu1 hne]
        · intro hne
          rw [hm2 (by rw [hm1 hne]; exact hne), hm1 hne]
        · intro hne
          rw [hs2 (by rw [hs1 hne]; exact hne), hs1 hne]
      · have hle : snaps.length ≤ m := Nat.le_of_not_lt hlen
        rw [build_take_stable snaps (m + 1) (hle.trans (Nat.le_succ m))]
        rw [build_take_stable snaps m hle] at hinfo1
        exact ⟨info1, hinfo1, hu1, hm1, hs1⟩

/-- Witness for C9: a two-snapshot day in which the url set by the first
snapshot is not overwritten by the empty url of the second snapshot. -/
theorem C9_fill_once_witness :
    ∃ info', lookupInfo (build_ledger
        ([⟨"10:00", [("s", [("t", ⟨[1], "u", "", ""⟩)])]⟩,
          ⟨"11:00", [("s", [("t", ⟨[2], "", "", ""⟩)])]⟩].take 2)) "s" "t" = some info' ∧
      ((⟨"10:00", "10:00", 1, [1], "u", "", ""⟩ : Info).url ≠ "" →
        info'.url = (⟨"10:00", "10:00", 1, [1], "u", "", ""⟩ : Info).url) ∧
      ((⟨"10:00", "10:00", 1, [1], "u", "", ""⟩ : Info).mobileUrl ≠ "" →
        info'.mobileUrl = (⟨"10:00", "10:00", 1, [1], "u", "", ""⟩ : Info).mobileUrl) ∧
      ((⟨"10:00", "10:00", 1, [1], "u", "", ""⟩ : Info).summary ≠ "" →
        info'.summary = (⟨"10:00", "10:00", 1, [1], "u", "", ""⟩ : Info).summary) :=
  C9_fill_once
    [⟨"10:00", [("s", [("t", ⟨[1], "u", "", ""⟩)])]⟩,
      ⟨"11:00", [("s", [("t", ⟨[2], "", "", ""⟩)])]⟩]
    (by decide) (by decide) 1 2 (by decide) "s" "t"
    ⟨"10:00", "10:00", 1, [1], "u", "", ""⟩ (by decide)

theorem lookupA_mem {β : Type} :
    ∀ (m : AList β) (k : String) (v : β), lookupA m k = some v → (k, v) ∈ m
  | [], _, _, h => by simp [lookupA] at h
  | p :: rest, k, v, h => by
    by_cases hp : p.1 = k
    · simp only [lookupA, hp, if_true] at h
      injection h with h
      have he : (k, v) = p := Prod.ext hp.symm h.symm
      rw [he]
      exact List.mem_cons_self p rest
    · simp only [lookupA, hp, if_false] at h
      exact List.mem_cons_of_mem p (lookupA_mem rest k v h)

theorem build_ledger_nodup_ranks (snaps : List Snapshot)
    (h1 : ∀ sp ∈ snaps, (sp.data.map Prod.fst).Nodup)
    (h2 : ∀ sp ∈ snaps, ∀ sd ∈ sp.data, (sd.2.map Prod.fst).Nodup)
    (h3 : ∀ sp ∈ snaps, ∀ sd ∈ sp.data, ∀ tv ∈ sd.2, tv.2.ranks.Nodup) :
    WF (build_ledger snaps) ∧
    ∀ s t info, lookupInfo (build_ledger snaps) s t = some info → info.ranks.Nodup := by
  unfold build_ledger
  refine foldl_preserve
    (fun st => WF st ∧
      ∀ s t info, lookupInfo st s t = some info → info.ranks.Nodup)
    snaps ?_ ⟨[], []⟩ ⟨WF_empty, ?_⟩
  · intro sp hm st hP
    obtain ⟨hwf, hnd⟩ := hP
    obtain ⟨hwf', hnone, hsome⟩ :=
      snap_fold_spec sp.time_info sp.data st hwf (h1 sp hm) (h2 sp hm)
    refine ⟨hwf', ?_⟩
    intro s t info' hinfo'
    simp only [process_snapshot] at hinfo'
    cases hlk : lookupA sp.data s with
    | none =>
      rw [(hnone s t hlk).1] at hinfo'
      exact hnd s t info' hinfo'
    | some td =>
      obtain ⟨tnone, tsome⟩ := hsome s td hlk
      cases hlt : lookupA td t with
      | none =>
        rw [(tnone t hlt).1] at hinfo'
        exact hnd s t info' hinfo'
      | some obs =>
        have hobsnd : obs.ranks.Nodup :=
          h3 sp hm (s, td) (lookupA_mem sp.data s td hlk) (t, obs)
            (lookupA_mem td t obs hlt)
        cases hprev : lookupInfo st s t with
        | none =>
          have hfix := ((tsome t obs hlt).1 hprev).1
          rw [hfix] at hinfo'
          injection hinfo' with hinfo'
          rw [← hinfo']
          exact hobsnd
        | some info0 =>
          have hfix := ((tsome t obs hlt).2 info0 hprev).1
          rw [hfix] at hinfo'
          injection hinfo' with hinfo'
          rw [← hinfo']
          exact merge_ranks_nodup obs.ranks info0.ranks (hnd s t info0 hprev)
  · intro s t info h
    simp [lookupInfo, lookupA] at h

/-! ### Claim C5: rank history invariants -/

/-- Claim C5: over the chronological fold of parsed snapshots (key lists
duplicate free and each observation rank list duplicate free, as the
snapshot parser produces), every ledger entry has duplicate-free ranks;
folding one further snapshot keeps every entry, only appends to its
ranks (the old list is a prefix of the new one, so ranks never shrink
and keep first-observation order), and raises count by at most 1; and a
title first seen at snapshot k is created with count 1 and ranks equal
to the observation ranks deduplicated with order preserved. -/
theorem C5_rank_invariants (snaps : List Snapshot)
    (h1 : ∀ sp ∈ snaps, (sp.data.map Prod.fst).Nodup)
    (h2 : ∀ sp ∈ snaps, ∀ sd ∈ sp.data, (sd.2.map Prod.fst).Nodup)
    (h3 : ∀ sp ∈ snaps, ∀ sd ∈ sp.data, ∀ tv ∈ sd.2, tv.2.ranks.Nodup) :
    (∀ s t info, lookupInfo (build_ledger snaps) s t = some info →
      info.ranks.Nodup) ∧
    (∀ k s t info, lookupInfo (build_ledger (snaps.take k)) s t = some info →
      ∃ info', lookupInfo (build_ledger (snaps.take (k + 1))) s t = some info' ∧
        info.ranks <+: info'.ranks ∧ info'.count ≤ info.count + 1) ∧
    (∀ k, ∀ hk : k < snaps.length, ∀ s td t obs,
      lookupA (snaps[k]).data s = some td → lookupA td t = some obs →
      lookupInfo (build_ledger (snaps.take k)) s t = none →
      ∃ info', lookupInfo (build_ledger (snaps.take (k + 1))) s t = some info' ∧
        info'.count = 1 ∧ info'.ranks = dedup_keep_order obs.ranks) := by
  refine ⟨(build_ledger_nodup_ranks snaps h1 h2 h3).2, ?_, ?_⟩
  · intro k s t info hinfo
    by_cases hlen : k < snaps.length
    · rw [build_take_succ snaps k hlen]
      have hwfk : WF (build_ledger (snaps.take k)) :=
        build_ledger_WF _ (fun sp hm => h1 sp (List.take_subset _ _ hm))
          (fun sp hm => h2 sp (List.take_subset _ _ hm))
      have hmem : snaps[k] ∈ snaps := List.getElem_mem hlen
      obtain ⟨info', hinfo', hpre, hcount, _, _, _, _⟩ :=
        snap_evolution snaps[k] (build_ledger (snaps.take k)) hwfk
          (h1 _ hmem) (h2 _ hmem) s t info hinfo
      exact ⟨info', hinfo', hpre, hcount⟩
    · have hle : snaps.length ≤ k := Nat.le_of_not_lt hlen
      rw [build_take_stable snaps (k + 1) (hle.trans (Nat.le_succ k))]
      rw [build_take_stable snaps k hle] at hinfo
      exact ⟨info, hinfo, List.prefix_rfl, Nat.le_succ _⟩
  · intro k hk s td t obs hlk hlt hnone
    rw [build_take_succ snaps k hk]
    have hwfk : WF (build_ledger (snaps.take k)) :=
      build_ledger_WF _ (fun sp hm => h1 sp (List.take_subset _ _ hm))
        (fun sp hm => h2 sp (List.take_subset _ _ hm))
    have hmem : snaps[k] ∈ snaps := List.getElem_mem hk
    obtain ⟨_, _, hsome⟩ :=
      snap_fold_spec (snaps[k]).time_info (snaps[k]).data
        (build_ledger (snaps.take k)) hwfk (h1 _ hmem) (h2 _ hmem)
    have hfix := ((hsome s td hlk).2 t obs hlt).1 hnone
    have hobsnd : obs.ranks.Nodup :=
      h3 snaps[k] hmem (s, td) (lookupA_mem _ s td hlk) (t, obs)
        (lookupA_mem td t obs hlt)
    refine ⟨freshInfo obs (snaps[k]).time_info, ?_, rfl, ?_⟩
    · show lookupInfo (process_snapshot _ _) s t = _
      simp only [process_snapshot]
      exact hfix.1
    · show obs.ranks = dedup_keep_order obs.ranks
      rw [dedup_keep_order_eq_self obs.ranks hobsnd]

/-- Witness for C5: the final ledger entry of a two-snapshot day has
duplicate-free ranks. -/
theorem C5_rank_invariants_witness :
    ((⟨"10", "11", 2, [3, 1], "", "", ""⟩ : Info).ranks).Nodup :=
  (C5_rank_invariants
      [⟨"10", [("s", [("t", ⟨[3], "", "", ""⟩)])]⟩,
        ⟨"11", [("s", [("t", ⟨[1], "", "", ""⟩)])]⟩]
      (by decide) (by decide) (by decide)).1 "s" "t"
    ⟨"10", "11", 2, [3, 1], "", "", ""⟩ (by decide)

theorem orElse_fill_stable (a b : String) :
    (if (if a = "" then b else a) = "" then b else (if a = "" then b else a)) =
      (if a = "" then b else a) := by
  by_cases ha : a = "" <;> by_cases hb : b = "" <;> simp [ha, hb]

/-- Claim C3 amended: folding the identical snapshot a second time is not
idempotent in count.  Every entry present after the first fold survives
the refold with ranks, fill-once fields and first_time unchanged, but
its count grows by exactly 1 when its title occurs in the snapshot (and
stays equal otherwise): process_source_data increments count once per
fold in which the title appears, not once per distinct snapshot. -/
theorem C3_count_per_fold (snaps : List Snapshot) (snap : Snapshot)
    (h1 : ∀ sp ∈ snaps, (sp.data.map Prod.fst).Nodup)
    (h2 : ∀ sp ∈ snaps, ∀ sd ∈ sp.data, (sd.2.map Prod.fst).Nodup)
    (h3 : (snap.data.map Prod.fst).Nodup)
    (h4 : ∀ sd ∈ snap.data, (sd.2.map Prod.fst).Nodup) :
    ∀ s t info1,
      lookupInfo (process_snapshot (build_ledger snaps) snap) s t = some info1 →
      ((∃ td, lookupA snap.data s = some td ∧ (lookupA td t).isSome) →
        lookupInfo (process_snapshot (process_snapshot (build_ledger snaps) snap) snap)
            s t =
          some { info1 with last_time := snap.time_info, count := info1.count + 1 }) ∧
      ((¬ ∃ td, lookupA snap.data s = some td ∧ (lookupA td t).isSome) →
        lookupInfo (process_snapshot (process_snapshot (build_ledger snaps) snap) snap)
            s t = some info1) := by
  have hwf0 := build_ledger_WF snaps h1 h2
  obtain ⟨hwf1, hnone1, hsome1⟩ :=
    snap_fold_spec snap.time_info snap.data (build_ledger snaps) hwf0 h3 h4
  intro s t info1 hinfo1
  simp only [process_snapshot] at hinfo1 ⊢
  obtain ⟨hwf2, hnone2, hsome2⟩ :=
    snap_fold_spec snap.time_info snap.data
      (snap.data.foldl (fun acc sd => process_source_data sd.1 sd.2 snap.time_info acc)
        (build_ledger snaps))
      hwf1 h3 h4
  constructor
  · rintro ⟨td, htd, hobs⟩
    obtain ⟨obs, hobs⟩ := Option.isSome_iff_exists.1 hobs
    have hstep2 := (((hsome2 s td htd).2 t obs hobs).2 info1 hinfo1).1
    rw [hstep2]
    cases hprev : lookupInfo (build_ledger snaps) s t with
    | none =>
      have hfix1 := (((hsome1 s td htd).2 t obs hobs).1 hprev).1
      rw [hfix1] at hinfo1
      injection hinfo1 with hinfo1
      subst hinfo1
      have habs : merge_ranks obs.ranks obs.ranks = obs.ranks :=
        merge_ranks_absorb obs.ranks obs.ranks fun r h => h
      simp [stepInfo, freshInfo, habs]
    | some info0 =>
      have hfix1 := (((hsome1 s td htd).2 t obs hobs).2 info0 hprev).1
      rw [hfix1] at hinfo1
      injection hinfo1 with hinfo1
      subst hinfo1
      have habs : merge_ranks (merge_ranks info0.ranks obs.ranks) obs.ranks =
          merge_ranks info0.ranks obs.ranks :=
        merge_ranks_absorb obs.ranks _ fun r h =>
          merge_ranks_mem obs.ranks info0.ranks r h
      simp [stepInfo, habs, orElse_fill_stable]
  · intro hnot
    cases hlk : lookupA snap.data s with
    | none =>
      rw [(hnone2 s t hlk).1]
      exact hinfo1
    | some td =>
      have hlt : lookupA td t = none := by
        cases hlt : lookupA td t with
        | none => rfl
        | some obs =>
          exact absurd ⟨td, hlk, by rw [hlt]; rfl⟩ hnot
      rw [((hsome2 s td hlk).1 t hlt).1]
      exact hinfo1

/-- Witness for the amended C3 at a one-snapshot day refolded once. -/
theorem C3_count_per_fold_witness :
    lookupInfo (process_snapshot (process_snapshot (build_ledger [])
        ⟨"10:00", [("s", [("t", ⟨[3], "", "", ""⟩)])]⟩)
        ⟨"10:00", [("s", [("t", ⟨[3], "", "", ""⟩)])]⟩) "s" "t" =
      some { (⟨"10:00", "10:00", 1, [3], "", "", ""⟩ : Info) with
        last_time := "10:00",
        count := (⟨"10:00", "10:00", 1, [3], "", "", ""⟩ : Info).count + 1 } :=
  ((C3_count_per_fold [] ⟨"10:00", [("s", [("t", ⟨[3], "", "", ""⟩)])]⟩
      (by decide) (by decide) (by decide) (by decide)) "s" "t"
    ⟨"10:00", "10:00", 1, [3], "", "", ""⟩ (by decide)).1
    ⟨[("t", ⟨[3], "", "", ""⟩)], by decide, by decide⟩

/-! ### Claim C7: the weight formula -/

/-- Claim C7: calculate_news_weight returns 0 on an empty ranks list
(the division is guarded, and the total Lean function shows that nothing
is raised), and for nonempty ranks it returns
rank_score * RANK_WEIGHT + frequency_score * FREQUENCY_WEIGHT
+ hotness_score * HOTNESS_WEIGHT, with rank_score the mean of
11 - min(r, 10), frequency_score = min(count, 10) * 10 and hotness_score
= 100 * (number of ranks at or below the threshold) / (number of ranks). -/
theorem C7_weight_formula (td : TitleData) (rt : Nat) (wc : WeightConfig) :
    (td.ranks = [] → calculate_news_weight td rt wc = 0) ∧
    (td.ranks ≠ [] →
      calculate_news_weight td rt wc =
        ((td.ranks.map fun r => (11 : ℚ) - min (r : ℚ) 10).sum / (td.ranks.length : ℚ))
            * wc.RANK_WEIGHT
          + ((min td.count 10 : ℕ) * 10 : ℚ) * wc.FREQUENCY_WEIGHT
          + (100 * ((td.ranks.filter fun r => decide (r ≤ rt)).length : ℚ)
              / (td.ranks.length : ℚ)) * wc.HOTNESS_WEIGHT) := by
  constructor
  · intro h
    simp [calculate_news_weight, h]
  · intro h
    have hne : td.ranks.isEmpty = false := by
      simpa [List.isEmpty_iff] using h
    simp only [calculate_news_weight, hne, Bool.false_eq_true, if_false]
    ring

/-- Witness for C7 at a concrete entry with ranks [1, 3]. -/
theorem C7_weight_formula_witness :
    calculate_news_weight ⟨"t", "s", "", 2, [1, 3], 2, "", "", false⟩ 2 ⟨1, 1, 1⟩ =
      ((([1, 3] : List ℕ).map fun r => (11 : ℚ) - min (r : ℚ) 10).sum / (([1, 3] : List ℕ).length : ℚ))
          * (1 : ℚ)
        + ((min 2 10 : ℕ) * 10 : ℚ) * (1 : ℚ)
        + (100 * ((([1, 3] : List ℕ).filter fun r => decide (r ≤ 2)).length : ℚ)
            / (([1, 3] : List ℕ).length : ℚ)) * (1 : ℚ) :=
  (C7_weight_formula ⟨"t", "s", "", 2, [1, 3], 2, "", "", false⟩ 2 ⟨1, 1, 1⟩).2 (by decide)

/-! ### Claim C6: the sort orders -/

theorem title_key_le_iff (rt : Nat) (wc : WeightConfig) (a b : TitleData) :
    title_key rt wc a ≤ title_key rt wc b ↔ title_sort_rel rt wc a b := by
  unfold title_key title_sort_rel
  rw [Prod.Lex.le_iff, Prod.Lex.le_iff]
  simp only [neg_lt_neg_iff, neg_inj, neg_le_neg_iff, Int.ofNat_le, Nat.cast_inj,
    Nat.cast_lt, Nat.cast_le]

/-- Claim C6: within a Stat the titles are sorted by descending weight,
tie-broken by ascending minimal rank (999 for missing ranks) and then by
descending count, and the resulting list is a permutation of the input;
the Stat list itself is sorted by descending count. -/
theorem C6_sort_order (rt : Nat) (wc : WeightConfig) (l : List TitleData)
    (ls : List Stat) :
    (sort_titles_by_weight rt wc l).Perm l ∧
    List.Sorted (title_sort_rel rt wc) (sort_titles_by_weight rt wc l) ∧
    (sort_stats ls).Perm ls ∧
    List.Sorted (fun a b => b.count ≤ a.count) (sort_stats ls) := by
  refine ⟨List.perm_insertionSort _ _, ?_, List.perm_insertionSort _ _, ?_⟩
  · have hs := @List.sorted_insertionSort TitleData
      (fun a b => title_key rt wc a ≤ title_key rt wc b)
      (fun a b => inferInstanceAs (Decidable (_ ≤ _)))
      ⟨fun a b => le_total _ _⟩ ⟨fun _ _ _ hab hbc => le_trans hab hbc⟩ l
    exact List.Pairwise.imp (fun h => (title_key_le_iff rt wc _ _).1 h) hs
  · exact @List.sorted_insertionSort Stat (fun a b => b.count ≤ a.count)
      (fun a b => inferInstanceAs (Decidable (_ ≤ _)))
      ⟨fun a b => le_total _ _⟩ ⟨fun _ _ _ hab hbc => le_trans hbc hab⟩ ls

/-! ### Claim C8: exclusive first-match group assignment -/

theorem assign_group_loop_eq_findIdx (tl : String) :
    ∀ (gs : List WordGroup) (i : Nat),
      assign_group_loop false tl gs i = gs.findIdx? (groupMatches tl) i
  | [], _ => by simp [assign_group_loop, List.findIdx?]
  | g :: gs, i => by
    by_cases h : groupMatches tl g = true
    · simp [assign_group_loop, List.findIdx?, h]
    · simp [assign_group_loop, List.findIdx?, h,
        assign_group_loop_eq_findIdx tl gs (i + 1)]

theorem findIdx?_cons_eq {α : Type _} (p : α → Bool) (a : α) (l : List α) (i : Nat) :
    (a :: l).findIdx? p i = if p a then some i else l.findIdx? p (i + 1) := by
  simp [List.findIdx?]

theorem findIdx?_eq_none_of_any_false {α : Type _} (p : α → Bool) :
    ∀ (l : List α) (i : Nat), l.any p = false → l.findIdx? p i = none
  | [], _, _ => by simp [List.findIdx?]
  | a :: l, i, h => by
    rw [List.any_cons, Bool.or_eq_false_iff] at h
    rw [findIdx?_cons_eq, if_neg (by simp [h.1]),
      findIdx?_eq_none_of_any_false p l (i + 1) h.2]

/-- Claim C8: for a nonempty configured group list, the group selection
of count_word_frequency is none when some filter word occurs in the
lowercased title, and otherwise exactly the first group in configured
order whose required words are all present and whose normal set is empty
or intersects the title; hence a title is assigned to at most one group
and iteration stops at the first match. -/
theorem C8_group_selection (title : String) (word_groups : List WordGroup)
    (filter_words : List String) (h : word_groups ≠ []) :
    assign_group title word_groups filter_words =
      if filter_words.any (fun fw => strContains (lowerS title) (lowerS fw))
      then none
      else word_groups.findIdx? (groupMatches (lowerS title)) := by
  obtain ⟨g0, gs0, rfl⟩ : ∃ g0 gs0, word_groups = g0 :: gs0 := by
    cases word_groups with
    | nil => exact absurd rfl h
    | cons a l => exact ⟨a, l, rfl⟩
  by_cases hf : (filter_words.any fun fw => strContains (lowerS title) (lowerS fw)) = true
  · simp [assign_group, matches_word_groups, hf]
  · rw [Bool.not_eq_true] at hf
    by_cases hany : ((g0 :: gs0).any fun g => groupMatches (lowerS title) g) = true
    · have hm : matches_word_groups title (g0 :: gs0) filter_words = true := by
        simp [matches_word_groups, hf, hany]
      cases gs0 with
      | nil =>
        by_cases hsp : (g0.group_key == "All News") = true
        · have hg0 : groupMatches (lowerS title) g0 = true := by
            simpa [List.any_cons] using hany
          simp [assign_group, hm, hf, hsp, assign_group_loop,
            findIdx?_cons_eq, hg0]
        · rw [Bool.not_eq_true] at hsp
          simp [assign_group, hm, hf, hsp, assign_group_loop_eq_findIdx]
      | cons g1 gs1 =>
        simp only [assign_group, hm, if_true, hf, Bool.false_eq_true, if_false]
        rw [assign_group_loop_eq_findIdx]
    · rw [Bool.not_eq_true] at hany
      have hm : matches_word_groups title (g0 :: gs0) filter_words = false := by
        simp [matches_word_groups, hf, hany]
      simp [assign_group, hm, hf,
        findIdx?_eq_none_of_any_false _ _ _ hany]

/-- Witness for C8: one required-word group list with a filter word, at a
matching title. -/
theorem C8_group_selection_witness :
    assign_group "Breaking news today" [⟨["breaking"], [], "breaking"⟩] ["ad"] = some 0 := by
  rw [C8_group_selection "Breaking news today" [⟨["breaking"], [], "breaking"⟩] ["ad"]
    (by decide)]
  decide

/-! ### Claim C4: the writer and parser tag round trip -/

/-- Claim C4 fails on the code: save_titles_to_file writes the tags in
the order URL, MOBILE, SUMMARY, but parse_file_titles peels MOBILE off
first from the right, so when a mobile url and a summary are both
present the mobile url absorbs the trailing summary tag and the summary
is lost.  At the failing input (title T with rank 1, url u, mobile url m,
summary x) the parsed entry holds mobileUrl equal to the corrupted
string and an empty summary, so the writer and parser pair is not a
bit-for-bit round trip even for clean titles. -/
theorem C4_roundtrip_failure :
    (parse_file_titles (save_titles_content
        [("s", [("T", ⟨[1], "u", "m", "x"⟩)])] [("s", "s")] [])).1 =
      [("s", [("T", ⟨[1], "u", "m] [SUMMARY:x", ""⟩)])] ∧
    (parse_file_titles (save_titles_content
        [("s", [("T", ⟨[1], "u", "m", "x"⟩)])] [("s", "s")] [])).1 ≠
      [("s", [("T", ⟨[1], "u", "m", "x"⟩)])] := by
  decide

/-! ### Claim C3: refolding the same snapshot is not idempotent -/

/-- Claim C3 fails on the code: folding the identical source data twice
with process_source_data yields count 2 where one fold yields count 1,
because the merge branch increments count unconditionally on every fold
in which the title appears. -/
theorem C3_counterexample :
    (lookupInfo (process_source_data "s" [("t", ⟨[3], "", "", ""⟩)] "10:00"
        (process_source_data "s" [("t", ⟨[3], "", "", ""⟩)] "10:00" ⟨[], []⟩))
        "s" "t").map Info.count = some 2 ∧
    (lookupInfo (process_source_data "s" [("t", ⟨[3], "", "", ""⟩)] "10:00" ⟨[], []⟩)
        "s" "t").map Info.count = some 1 := by
  decide

/-! ### Claim C10: the inter-group separator step -/

/-- Claim C10: the separator step between consecutive keyword groups
never closes the current batch and never emits (batches and the content
flag are unchanged); the separator is appended exactly when the current
batch plus separator plus footer stays strictly within max_bytes, and
otherwise the state is entirely unchanged, so a dropped separator is
neither kept for the next batch nor retried. -/
theorem C10_separator_step (max_bytes : Nat) (footer sep : String) (st : SplitState) :
    (sep_step max_bytes footer sep st).batches = st.batches ∧
    (sep_step max_bytes footer sep st).has_content = st.has_content ∧
    (byteLen (st.current_batch ++ sep) + byteLen footer < max_bytes →
      (sep_step max_bytes footer sep st).current_batch = st.current_batch ++ sep) ∧
    (max_bytes ≤ byteLen (st.current_batch ++ sep) + byteLen footer →
      sep_step max_bytes footer sep st = st) := by
  unfold sep_step
  by_cases h : byteLen (st.current_batch ++ sep) + byteLen footer < max_bytes
  · refine ⟨by simp [h], by simp [h], fun _ => by simp [h], fun h' => absurd h (by omega)⟩
  · refine ⟨by simp [h], by simp [h], fun h' => absurd h' h, fun _ => by simp [h]⟩

/-- Witness for C10 in the fits case at a concrete state. -/
theorem C10_separator_step_witness :
    (sep_step 40 "F" "\n\n" ⟨[], "body", true⟩).current_batch = "body" ++ "\n\n" :=
  (C10_separator_step 40 "F" "\n\n" ⟨[], "body", true⟩).2.2.1 (by decide)

/-! ### Splitter byte-budget invariants -/

theorem byteLen_newline : byteLen "\n" = 1 := by decide

theorem good_of_weak_cur (max_bytes : Nat) (footer : String) (seeds : List String)
    (cur : String) (h : curWeak max_bytes footer seeds cur) :
    goodBatch max_bytes footer seeds (cur ++ footer) := by
  rcases h with h | h | ⟨s, hs, rfl⟩
  · left
    rw [byteLen_append]
    exact h
  · right
    exact ⟨cur, h, Or.inl rfl⟩
  · right
    exact ⟨s, hs, Or.inr rfl⟩

theorem weak_of_tight_cur (max_bytes : Nat) (footer : String) (seeds : List String)
    (cur : String) (h : curTight max_bytes footer seeds cur) :
    curWeak max_bytes footer seeds cur := by
  rcases h with h | h
  · exact Or.inl (Nat.le_of_lt h)
  · exact Or.inr (Or.inl h)

theorem invW_of_invT (max_bytes : Nat) (footer : String) (seeds : List String)
    (st : SplitState) (h : InvT max_bytes footer seeds st) :
    InvW max_bytes footer seeds st :=
  ⟨h.1, fun hc => weak_of_tight_cur _ _ _ _ (h.2 hc)⟩

theorem appendOrSeed_invT (max_bytes : Nat) (footer seed unit : String)
    (seeds : List String) (st : SplitState) (hseed : seed ∈ seeds)
    (h : InvW max_bytes footer seeds st) :
    InvT max_bytes footer seeds (appendOrSeed max_bytes footer seed unit st) := by
  unfold appendOrSeed
  by_cases hc : max_bytes ≤ byteLen (st.current_batch ++ unit) + byteLen footer
  · rw [if_pos hc]
    constructor
    · intro b hb
      unfold flushIf at hb
      by_cases hhc : st.has_content = true
      · rw [if_pos hhc] at hb
        rcases List.mem_append.1 hb with hb | hb
        · exact h.1 b hb
        · rw [List.mem_singleton] at hb
          subst hb
          exact good_of_weak_cur _ _ _ _ (h.2 hhc)
      · rw [if_neg hhc] at hb
        exact h.1 b hb
    · intro _
      exact Or.inr hseed
  · rw [if_neg hc]
    refine ⟨h.1, fun _ => Or.inl ?_⟩
    rw [Nat.not_le] at hc
    exact hc

theorem sep_step_invT (max_bytes : Nat) (footer sep : String)
    (seeds : List String) (st : SplitState)
    (h : InvT max_bytes footer seeds st) :
    InvT max_bytes footer seeds (sep_step max_bytes footer sep st) := by
  unfold sep_step
  by_cases hc : byteLen (st.current_batch ++ sep) + byteLen footer < max_bytes
  · rw [if_pos hc]
    exact ⟨h.1, fun _ => Or.inl hc⟩
  · rw [if_neg hc]
    exact h

theorem stray_invW (max_bytes : Nat) (footer : String) (seeds : List String)
    (st : SplitState) (h : InvT max_bytes footer seeds st) :
    InvW max_bytes footer seeds
      { st with current_batch := st.current_batch ++ "\n" } := by
  refine ⟨h.1, fun hc => ?_⟩
  rcases h.2 hc with ht | ht
  · left
    show byteLen (st.current_batch ++ "\n") + byteLen footer ≤ max_bytes
    rw [byteLen_append, byteLen_newline]
    omega
  · right; right
    exact ⟨st.current_batch, ht, rfl⟩

theorem process_stat_invT (format_type feishu_sep : String) (max_bytes : Nat)
    (bh sh footer : String) (total_count : Nat) (seeds : List String)
    (istat : Nat × Stat)
    (hseed1 : bh ++ sh ++ (word_header_of format_type total_count istat.1 istat.2
      ++ stats_first_line format_type istat.2) ∈ seeds)
    (hseed2 : ∀ jtd ∈ (istat.2.titles.drop 1).enumFrom 1,
      bh ++ sh ++ word_header_of format_type total_count istat.1 istat.2
        ++ stats_news_line format_type istat.2.titles.length jtd.1 jtd.2 ∈ seeds)
    (st : SplitState) (h : InvT max_bytes footer seeds st) :
    InvT max_bytes footer seeds
      (process_stat format_type feishu_sep max_bytes bh sh footer total_count st istat) := by
  simp only [process_stat]
  have h1 := appendOrSeed_invT max_bytes footer
    (bh ++ sh ++ (word_header_of format_type total_count istat.1 istat.2
      ++ stats_first_line format_type istat.2))
    (word_header_of format_type total_count istat.1 istat.2
      ++ stats_first_line format_type istat.2)
    seeds st hseed1 (invW_of_invT _ _ _ _ h)
  have h2 := foldl_preserve (InvT max_bytes footer seeds)
    ((istat.2.titles.drop 1).enumFrom 1)
    (fun jtd hj s hs =>
      appendOrSeed_invT max_bytes footer
        (bh ++ sh ++ word_header_of format_type total_count istat.1 istat.2
          ++ stats_news_line format_type istat.2.titles.length jtd.1 jtd.2)
        (stats_news_line format_type istat.2.titles.length jtd.1 jtd.2)
        seeds s (hseed2 jtd hj) (invW_of_invT _ _ _ _ hs))
    _ h1
  by_cases hi : istat.1 < total_count - 1
  · rw [if_pos hi]
    exact sep_step_invT _ _ _ _ _ h2
  · rw [if_neg hi]
    exact h2

theorem process_source_invW (format_type : String) (max_bytes : Nat)
    (bh nh footer : String) (seeds : List String) (sd : SourceData)
    (hseed1 : bh ++ nh ++ (source_header_for format_type sd.source_name sd.titles.length
      ++ new_first_line format_type sd) ∈ seeds)
    (hseed2 : ∀ jtd ∈ (sd.titles.drop 1).enumFrom 1,
      bh ++ nh ++ source_header_for format_type sd.source_name sd.titles.length
        ++ new_news_line format_type jtd.1 jtd.2 ∈ seeds)
    (st : SplitState) (h : InvW max_bytes footer seeds st) :
    InvW max_bytes footer seeds
      (process_source format_type max_bytes bh nh footer st sd) := by
  simp only [process_source]
  have h1 := appendOrSeed_invT max_bytes footer
    (bh ++ nh ++ (source_header_for format_type sd.source_name sd.titles.length
      ++ new_first_line format_type sd))
    (source_header_for format_type sd.source_name sd.titles.length
      ++ new_first_line format_type sd)
    seeds st hseed1 h
  have h2 := foldl_preserve (InvT max_bytes footer seeds)
    ((sd.titles.drop 1).enumFrom 1)
    (fun jtd hj s hs =>
      appendOrSeed_invT max_bytes footer
        (bh ++ nh ++ source_header_for format_type sd.source_name sd.titles.length
          ++ new_news_line format_type jtd.1 jtd.2)
        (new_news_line format_type jtd.1 jtd.2)
        seeds s (hseed2 jtd hj) (invW_of_invT _ _ _ _ hs))
    _ h1
  exact stray_invW _ _ _ _ h2

theorem stats_stage_invT (format_type feishu_sep : String) (max_bytes : Nat)
    (bh sh footer : String) (stats : List Stat) (seeds : List String)
    (st0 : SplitState)
    (hsh : bh ++ sh ∈ seeds)
    (hunit : ∀ istat ∈ stats.enum,
      bh ++ sh ++ (word_header_of format_type stats.length istat.1 istat.2
        ++ stats_first_line format_type istat.2) ∈ seeds)
    (hline : ∀ istat ∈ stats.enum, ∀ jtd ∈ (istat.2.titles.drop 1).enumFrom 1,
      bh ++ sh ++ word_header_of format_type stats.length istat.1 istat.2
        ++ stats_news_line format_type istat.2.titles.length jtd.1 jtd.2 ∈ seeds)
    (h : InvT max_bytes footer seeds st0) :
    InvT max_bytes footer seeds
      (stats_stage format_type feishu_sep max_bytes bh sh footer stats st0) := by
  unfold stats_stage
  by_cases he : stats.isEmpty = true
  · rw [if_pos he]
    exact h
  · rw [if_neg he]
    exact foldl_preserve (InvT max_bytes footer seeds) stats.enum
      (fun istat hm s hs =>
        process_stat_invT format_type feishu_sep max_bytes bh sh footer
          stats.length seeds istat (hunit istat hm) (hline istat hm) s hs)
      _ (appendOrSeed_invT max_bytes footer (bh ++ sh) sh seeds st0 hsh
        (invW_of_invT _ _ _ _ h))

theorem new_stage_invW (format_type : String) (max_bytes : Nat)
    (bh nh footer : String) (new_titles : List SourceData) (seeds : List String)
    (st1 : SplitState)
    (hnh : bh ++ nh ∈ seeds)
    (hunit : ∀ sd ∈ new_titles,
      bh ++ nh ++ (source_header_for format_type sd.source_name sd.titles.length
        ++ new_first_line format_type sd) ∈ seeds)
    (hline : ∀ sd ∈ new_titles, ∀ jtd ∈ (sd.titles.drop 1).enumFrom 1,
      bh ++ nh ++ source_header_for format_type sd.source_name sd.titles.length
        ++ new_news_line format_type jtd.1 jtd.2 ∈ seeds)
    (h : InvW max_bytes footer seeds st1) :
    InvW max_bytes footer seeds
      (new_stage format_type max_bytes bh nh footer new_titles st1) := by
  unfold new_stage
  by_cases he : new_titles.isEmpty = true
  · rw [if_pos he]
    exact h
  · rw [if_neg he]
    exact foldl_preserve (InvW max_bytes footer seeds) new_titles
      (fun sd hm s hs =>
        process_source_invW format_type max_bytes bh nh footer seeds sd
          (hunit sd hm) (hline sd hm) s hs)
      _ (invW_of_invT _ _ _ _
        (appendOrSeed_invT max_bytes footer (bh ++ nh) nh seeds st1 hnh h))

theorem failed_stage_invW (format_type : String) (max_bytes : Nat)
    (bh fh footer : String) (failed_ids : List String) (seeds : List String)
    (st2 : SplitState)
    (hfh : bh ++ fh ∈ seeds)
    (hline : ∀ idv ∈ failed_ids,
      bh ++ fh ++ failed_line_for format_type idv ∈ seeds)
    (h : InvW max_bytes footer seeds st2) :
    InvW max_bytes footer seeds
      (failed_stage format_type max_bytes bh fh footer failed_ids st2) := by
  unfold failed_stage
  by_cases he : failed_ids.isEmpty = true
  · rw [if_pos he]
    exact h
  · rw [if_neg he]
    exact invW_of_invT _ _ _ _
      (foldl_preserve (InvT max_bytes footer seeds) failed_ids
        (fun idv hm s hs =>
          appendOrSeed_invT max_bytes footer
            (bh ++ fh ++ failed_line_for format_type idv)
            (failed_line_for format_type idv) seeds s (hline idv hm)
            (invW_of_invT _ _ _ _ hs))
        _ (appendOrSeed_invT max_bytes footer (bh ++ fh) fh seeds st2 hfh h))

theorem flush_good (max_bytes : Nat) (footer : String) (seeds : List String)
    (st : SplitState) (h : InvW max_bytes footer seeds st) :
    ∀ b ∈ flushIf st footer, goodBatch max_bytes footer seeds b := by
  intro b hb
  unfold flushIf at hb
  by_cases hhc : st.has_content = true
  · rw [if_pos hhc] at hb
    rcases List.mem_append.1 hb with hb | hb
    · exact h.1 b hb
    · rw [List.mem_singleton] at hb
      subst hb
      exact good_of_weak_cur _ _ _ _ (h.2 hhc)
  · rw [if_neg hhc] at hb
    exact h.1 b hb

/-! ### Seed membership lemmas -/

theorem seed_mem_notice (report : ReportData) (format_type mode now_str feishu_sep : String) :
    base_header_for format_type (total_titles_of report.stats) now_str
      ++ notice_content mode ∈ seed_strings report format_type mode now_str feishu_sep := by
  simp [seed_strings]

theorem seed_mem_sh (report : ReportData) (format_type mode now_str feishu_sep : String) :
    base_header_for format_type (total_titles_of report.stats) now_str
      ++ stats_header_for format_type (!report.stats.isEmpty)
      ∈ seed_strings report format_type mode now_str feishu_sep := by
  simp [seed_strings]

theorem seed_mem_nh (report : ReportData) (format_type mode now_str feishu_sep : String) :
    base_header_for format_type (total_titles_of report.stats) now_str
      ++ new_header_for format_type feishu_sep report.total_new_count
      ∈ seed_strings report format_type mode now_str feishu_sep := by
  simp [seed_strings]

theorem seed_mem_fh (report : ReportData) (format_type mode now_str feishu_sep : String) :
    base_header_for format_type (total_titles_of report.stats) now_str
      ++ failed_header_for format_type feishu_sep
      ∈ seed_strings report format_type mode now_str feishu_sep := by
  simp [seed_strings]

theorem seed_mem_stat_unit (report : ReportData)
    (format_type mode now_str feishu_sep : String) (istat : Nat × Stat)
    (h : istat ∈ report.stats.enum) :
    base_header_for format_type (total_titles_of report.stats) now_str
      ++ stats_header_for format_type (!report.stats.isEmpty)
      ++ (word_header_of format_type report.stats.length istat.1 istat.2
        ++ stats_first_line format_type istat.2)
      ∈ seed_strings report format_type mode now_str feishu_sep := by
  simp only [seed_strings]
  refine List.mem_append_left _ (List.mem_append_left _ (List.mem_append_left _
    (List.mem_append_left _ (List.mem_append_right _ ?_))))
  exact List.mem_map_of_mem _ h

theorem seed_mem_stat_line (report : ReportData)
    (format_type mode now_str feishu_sep : String) (istat : Nat × Stat)
    (jtd : Nat × TitleData) (h : istat ∈ report.stats.enum)
    (hj : jtd ∈ (istat.2.titles.drop 1).enumFrom 1) :
    base_header_for format_type (total_titles_of report.stats) now_str
      ++ stats_header_for format_type (!report.stats.isEmpty)
      ++ word_header_of format_type report.stats.length istat.1 istat.2
      ++ stats_news_line format_type istat.2.titles.length jtd.1 jtd.2
      ∈ seed_strings report format_type mode now_str feishu_sep := by
  simp only [seed_strings]
  refine List.mem_append_left _ (List.mem_append_left _ (List.mem_append_left _
    (List.mem_append_right _ ?_)))
  exact List.mem_flatten.2 ⟨_, List.mem_map_of_mem _ h, List.mem_map_of_mem _ hj⟩

theorem seed_mem_source_unit (report : ReportData)
    (format_type mode now_str feishu_sep : String) (sd : SourceData)
    (h : sd ∈ report.new_titles) :
    base_header_for format_type (total_titles_of report.stats) now_str
      ++ new_header_for format_type feishu_sep report.total_new_count
      ++ (source_header_for format_type sd.source_name sd.titles.length
        ++ new_first_line format_type sd)
      ∈ seed_strings report format_type mode now_str feishu_sep := by
  simp only [seed_strings]
  refine List.mem_append_left _ (List.mem_append_left _
    (List.mem_append_right _ ?_))
  exact List.mem_map_of_mem _ h

theorem seed_mem_source_line (report : ReportData)
    (format_type mode now_str feishu_sep : String) (sd : SourceData)
    (jtd : Nat × TitleData) (h : sd ∈ report.new_titles)
    (hj : jtd ∈ (sd.titles.drop 1).enumFrom 1) :
    base_header_for format_type (total_titles_of report.stats) now_str
      ++ new_header_for format_type feishu_sep report.total_new_count
      ++ source_header_for format_type sd.source_name sd.titles.length
      ++ new_news_line format_type jtd.1 jtd.2
      ∈ seed_strings report format_type mode now_str feishu_sep := by
  simp only [seed_strings]
  refine List.mem_append_left _ (List.mem_append_right _ ?_)
  exact List.mem_flatten.2 ⟨_, List.mem_map_of_mem _ h, List.mem_map_of_mem _ hj⟩

theorem seed_mem_failed_line (report : ReportData)
    (format_type mode now_str feishu_sep : String) (idv : String)
    (h : idv ∈ report.failed_ids) :
    base_header_for format_type (total_titles_of report.stats) now_str
      ++ failed_header_for format_type feishu_sep
      ++ failed_line_for format_type idv
      ∈ seed_strings report format_type mode now_str feishu_sep := by
  simp only [seed_strings]
  exact List.mem_append_right _ (List.mem_map_of_mem _ h)

/-! ### Claim C1: the byte bound, corrected -/

/-- Claim C1, amended: every payload produced by the splitter is within
max_bytes, or it is exactly one pending item that overflowed — the base
header with a section header and one atomic unit, a later title line
with its group or source header, a bare section header, a failed-source
line, or the no-content notice — possibly followed by the one
unconditional newline of the novelty loop, plus the footer; such
oversized seeds are emitted rather than dropped.  (The unamended claim
admits only atomic group/source units as oversized payloads.) -/
theorem C1_byte_bound (report : ReportData) (format_type : String)
    (update_info : Option UpdateInfo) (max_bytes : Nat) (mode : String)
    (now_str feishu_sep : String) (hmb : 0 < max_bytes) :
    ∀ b ∈ split_content_into_batches report format_type update_info max_bytes
        mode now_str feishu_sep,
      goodBatch max_bytes (base_footer_for format_type now_str update_info)
        (seed_strings report format_type mode now_str feishu_sep) b := by
  intro b hb
  simp only [split_content_into_batches] at hb
  by_cases hempty :
      (report.stats.isEmpty ∧ report.new_titles.isEmpty ∧ report.failed_ids.isEmpty)
  · rw [if_pos hempty] at hb
    rw [List.mem_singleton] at hb
    subst hb
    right
    exact ⟨base_header_for format_type (total_titles_of report.stats) now_str
      ++ notice_content mode,
      seed_mem_notice report format_type mode now_str feishu_sep, Or.inl rfl⟩
  · rw [if_neg hempty] at hb
    refine flush_good max_bytes _ _ _ ?_ b hb
    refine failed_stage_invW _ _ _ _ _ _ _ _
      (seed_mem_fh report format_type mode now_str feishu_sep)
      (fun idv hm => seed_mem_failed_line report format_type mode now_str feishu_sep idv hm)
      ?_
    refine new_stage_invW _ _ _ _ _ _ _ _
      (seed_mem_nh report format_type mode now_str feishu_sep)
      (fun sd hm => seed_mem_source_unit report format_type mode now_str feishu_sep sd hm)
      (fun sd hm jtd hj =>
        seed_mem_source_line report format_type mode now_str feishu_sep sd jtd hm hj)
      ?_
    refine invW_of_invT _ _ _ _ ?_
    refine stats_stage_invT _ _ _ _ _ _ _ _ _
      (seed_mem_sh report format_type mode now_str feishu_sep)
      (fun istat hm =>
        seed_mem_stat_unit report format_type mode now_str feishu_sep istat hm)
      (fun istat hm jtd hj =>
        seed_mem_stat_line report format_type mode now_str feishu_sep istat jtd hm hj)
      ?_
    exact ⟨fun b hb => absurd hb (List.not_mem_nil b), fun hc => nomatch hc⟩

/-- Witness for the amended C1 at a small concrete report and its one
concrete produced batch. -/
theorem C1_byte_bound_witness :
    goodBatch 4000 (base_footer_for "telegram" "T" none)
      (seed_strings ⟨[⟨"w", 1, 0, [⟨"A", "s", "", 1, [1], 0, "", "", false⟩]⟩], [], [], 0⟩
        "telegram" "daily" "T" "---")
      "Total News: 1\n\n📊 Trending Keywords Stats\n\n📌 [1/1] w : 1 items\n\n  1. [s] A [1]\n\n\nUpdated: T" :=
  C1_byte_bound
    ⟨[⟨"w", 1, 0, [⟨"A", "s", "", 1, [1], 0, "", "", false⟩]⟩], [], [], 0⟩
    "telegram" none 4000 "daily" "T" "---" (by decide)
    "Total News: 1\n\n📊 Trending Keywords Stats\n\n📌 [1/1] w : 1 items\n\n  1. [s] A [1]\n\n\nUpdated: T"
    (by decide)

/-- Claim C1 as frozen is false: with a tiny max_bytes the splitter can
emit a payload exceeding the budget that contains no atomic unit at all
(here the first emitted batch holds only the base header and the stats
section header), so the exception clause of the claim does not cover it. -/
theorem C1_counterexample :
    (split_content_into_batches
        ⟨[⟨"w", 1, 0, [⟨"A", "s", "", 1, [1], 0, "", "", false⟩,
            ⟨"B", "s", "", 1, [1], 0, "", "", false⟩]⟩], [], [], 0⟩
        "telegram" none 10 "daily" "T" "---")[0]? =
      some "Total News: 2\n\n📊 Trending Keywords Stats\n\n\n\nUpdated: T" ∧
    10 < byteLen "Total News: 2\n\n📊 Trending Keywords Stats\n\n\n\nUpdated: T" ∧
    ¬ ((word_header_of "telegram" 1 0
          ⟨"w", 1, 0, [⟨"A", "s", "", 1, [1], 0, "", "", false⟩,
            ⟨"B", "s", "", 1, [1], 0, "", "", false⟩]⟩
        ++ stats_first_line "telegram"
          ⟨"w", 1, 0, [⟨"A", "s", "", 1, [1], 0, "", "", false⟩,
            ⟨"B", "s", "", 1, [1], 0, "", "", false⟩]⟩).data <:+:
        ("Total News: 2\n\n📊 Trending Keywords Stats\n\n\n\nUpdated: T" : String).data) := by
  refine ⟨?_, by decide, by decide⟩
  decide

/-! ### Claim C2: atomic units are never split across batches -/

theorem infix_append_str (u : String) (a x : String) (h : u.data <:+: a.data) :
    u.data <:+: (a ++ x).data := by
  rw [String.data_append]
  exact h.trans (List.prefix_append a.data x.data).isInfix

theorem suffix_infix_str (u pre : String) : u.data <:+: (pre ++ u).data := by
  rw [String.data_append]
  exact (List.suffix_append pre.data u.data).isInfix

theorem mem_flushIf_of_mem (st : SplitState) (footer b : String)
    (hb : b ∈ st.batches) : b ∈ flushIf st footer := by
  unfold flushIf
  by_cases h : st.has_content = true
  · rw [if_pos h]
    exact List.mem_append_left _ hb
  · rw [if_neg h]
    exact hb

theorem cur_mem_flushIf (st : SplitState) (footer : String)
    (h : st.has_content = true) : st.current_batch ++ footer ∈ flushIf st footer := by
  unfold flushIf
  rw [if_pos h]
  exact List.mem_append_right _ (List.mem_singleton_self _)

theorem unitSomewhere_appendOrSeed (max_bytes : Nat) (footer seed unit u : String)
    (st : SplitState) (h : unitSomewhere u st) :
    unitSomewhere u (appendOrSeed max_bytes footer seed unit st) := by
  unfold appendOrSeed
  by_cases hc : max_bytes ≤ byteLen (st.current_batch ++ unit) + byteLen footer
  · rw [if_pos hc]
    rcases h with ⟨b, hb, hib⟩ | ⟨hic, hcont⟩
    · exact Or.inl ⟨b, mem_flushIf_of_mem st footer b hb, hib⟩
    · exact Or.inl ⟨st.current_batch ++ footer, cur_mem_flushIf st footer hcont,
        infix_append_str u st.current_batch footer hic⟩
  · rw [if_neg hc]
    rcases h with ⟨b, hb, hib⟩ | ⟨hic, _⟩
    · exact Or.inl ⟨b, hb, hib⟩
    · exact Or.inr ⟨infix_append_str u st.current_batch unit hic, rfl⟩

theorem unitSomewhere_appendOrSeed_estab (max_bytes : Nat)
    (footer u pre : String) (st : SplitState) :
    unitSomewhere u (appendOrSeed max_bytes footer (pre ++ u) u st) := by
  unfold appendOrSeed
  by_cases hc : max_bytes ≤ byteLen (st.current_batch ++ u) + byteLen footer
  · rw [if_pos hc]
    exact Or.inr ⟨suffix_infix_str u pre, rfl⟩
  · rw [if_neg hc]
    exact Or.inr ⟨suffix_infix_str u st.current_batch, rfl⟩

theorem unitSomewhere_sep (max_bytes : Nat) (footer sep u : String)
    (st : SplitState) (h : unitSomewhere u st) :
    unitSomewhere u (sep_step max_bytes footer sep st) := by
  unfold sep_step
  by_cases hc : byteLen (st.current_batch ++ sep) + byteLen footer < max_bytes
  · rw [if_pos hc]
    rcases h with ⟨b, hb, hib⟩ | ⟨hic, hcont⟩
    · exact Or.inl ⟨b, hb, hib⟩
    · exact Or.inr ⟨infix_append_str u st.current_batch sep hic, hcont⟩
  · rw [if_neg hc]
    exact h

theorem unitSomewhere_stray (u : String) (st : SplitState)
    (h : unitSomewhere u st) :
    unitSomewhere u { st with current_batch := st.current_batch ++ "\n" } := by
  rcases h with ⟨b, hb, hib⟩ | ⟨hic, hcont⟩
  · exact Or.inl ⟨b, hb, hib⟩
  · exact Or.inr ⟨infix_append_str u st.current_batch "\n" hic, hcont⟩

theorem unitSomewhere_process_stat (format_type feishu_sep : String)
    (max_bytes : Nat) (bh sh footer : String) (total_count : Nat)
    (istat : Nat × Stat) (u : String) (st : SplitState)
    (h : unitSomewhere u st) :
    unitSomewhere u
      (process_stat format_type feishu_sep max_bytes bh sh footer total_count st istat) := by
  simp only [process_stat]
  have h1 := unitSomewhere_appendOrSeed max_bytes footer
    (bh ++ sh ++ (word_header_of format_type total_count istat.1 istat.2
      ++ stats_first_line format_type istat.2))
    (word_header_of format_type total_count istat.1 istat.2
      ++ stats_first_line format_type istat.2) u st h
  have h2 := foldl_preserve (unitSomewhere u)
    ((istat.2.titles.drop 1).enumFrom 1)
    (fun jtd _ s hs => unitSomewhere_appendOrSeed max_bytes footer
      (bh ++ sh ++ word_header_of format_type total_count istat.1 istat.2
        ++ stats_news_line format_type istat.2.titles.length jtd.1 jtd.2)
      (stats_news_line format_type istat.2.titles.length jtd.1 jtd.2) u s hs)
    _ h1
  by_cases hi : istat.1 < total_count - 1
  · rw [if_pos hi]
    exact unitSomewhere_sep max_bytes footer _ u _ h2
  · rw [if_neg hi]
    exact h2

theorem unitSomewhere_process_source (format_type : String) (max_bytes : Nat)
    (bh nh footer : String) (sd : SourceData) (u : String) (st : SplitState)
    (h : unitSomewhere u st) :
    unitSomewhere u (process_source format_type max_bytes bh nh footer st sd) := by
  simp only [process_source]
  have h1 := unitSomewhere_appendOrSeed max_bytes footer
    (bh ++ nh ++ (source_header_for format_type sd.source_name sd.titles.length
      ++ new_first_line format_type sd))
    (source_header_for format_type sd.source_name sd.titles.length
      ++ new_first_line format_type sd) u st h
  have h2 := foldl_preserve (unitSomewhere u)
    ((sd.titles.drop 1).enumFrom 1)
    (fun jtd _ s hs => unitSomewhere_appendOrSeed max_bytes footer
      (bh ++ nh ++ source_header_for format_type sd.source_name sd.titles.length
        ++ new_news_line format_type jtd.1 jtd.2)
      (new_news_line format_type jtd.1 jtd.2) u s hs)
    _ h1
  exact unitSomewhere_stray u _ h2

theorem estab_process_stat (format_type feishu_sep : String) (max_bytes : Nat)
    (bh sh footer : String) (total_count : Nat) (istat : Nat × Stat)
    (st : SplitState) :
    unitSomewhere
      (word_header_of format_type total_count istat.1 istat.2
        ++ stats_first_line format_type istat.2)
      (process_stat format_type feishu_sep max_bytes bh sh footer total_count st istat) := by
  simp only [process_stat]
  have h1 := unitSomewhere_appendOrSeed_estab max_bytes footer
    (word_header_of format_type total_count istat.1 istat.2
      ++ stats_first_line format_type istat.2) (bh ++ sh) st
  have h2 := foldl_preserve
    (unitSomewhere (word_header_of format_type total_count istat.1 istat.2
      ++ stats_first_line format_type istat.2))
    ((istat.2.titles.drop 1).enumFrom 1)
    (fun jtd _ s hs => unitSomewhere_appendOrSeed max_bytes footer
      (bh ++ sh ++ word_header_of format_type total_count istat.1 istat.2
        ++ stats_news_line format_type istat.2.titles.length jtd.1 jtd.2)
      (stats_news_line format_type istat.2.titles.length jtd.1 jtd.2) _ s hs)
    _ h1
  by_cases hi : istat.1 < total_count - 1
  · rw [if_pos hi]
    exact unitSomewhere_sep max_bytes footer _ _ _ h2
  · rw [if_neg hi]
    exact h2

theorem estab_process_source (format_type : String) (max_bytes : Nat)
    (bh nh footer : String) (sd : SourceData) (st : SplitState) :
    unitSomewhere
      (source_header_for format_type sd.source_name sd.titles.length
        ++ new_first_line format_type sd)
      (process_source format_type max_bytes bh nh footer st sd) := by
  simp only [process_source]
  have h1 := unitSomewhere_appendOrSeed_estab max_bytes footer
    (source_header_for format_type sd.source_name sd.titles.length
      ++ new_first_line format_type sd) (bh ++ nh) st
  have h2 := foldl_preserve
    (unitSomewhere (source_header_for format_type sd.source_name sd.titles.length
      ++ new_first_line format_type sd))
    ((sd.titles.drop 1).enumFrom 1)
    (fun jtd _ s hs => unitSomewhere_appendOrSeed max_bytes footer
      (bh ++ nh ++ source_header_for format_type sd.source_name sd.titles.length
        ++ new_news_line format_type jtd.1 jtd.2)
      (new_news_line format_type jtd.1 jtd.2) _ s hs)
    _ h1
  exact unitSomewhere_stray _ _ h2

theorem unitSomewhere_new_stage (format_type : String) (max_bytes : Nat)
    (bh nh footer : String) (new_titles : List SourceData) (u : String)
    (st : SplitState) (h : unitSomewhere u st) :
    unitSomewhere u (new_stage format_type max_bytes bh nh footer new_titles st) := by
  unfold new_stage
  by_cases he : new_titles.isEmpty = true
  · rw [if_pos he]
    exact h
  · rw [if_neg he]
    exact foldl_preserve (unitSomewhere u) new_titles
      (fun sd _ s hs => unitSomewhere_process_source format_type max_bytes bh nh footer sd u s hs)
      _ (unitSomewhere_appendOrSeed max_bytes footer (bh ++ nh) nh u st h)

theorem unitSomewhere_failed_stage (format_type : String) (max_bytes : Nat)
    (bh fh footer : String) (failed_ids : List String) (u : String)
    (st : SplitState) (h : unitSomewhere u st) :
    unitSomewhere u (failed_stage format_type max_bytes bh fh footer failed_ids st) := by
  unfold failed_stage
  by_cases he : failed_ids.isEmpty = true
  · rw [if_pos he]
    exact h
  · rw [if_neg he]
    exact foldl_preserve (unitSomewhere u) failed_ids
      (fun idv _ s hs => unitSomewhere_appendOrSeed max_bytes footer _ _ u s hs)
      _ (unitSomewhere_appendOrSeed max_bytes footer (bh ++ fh) fh u st h)

theorem flush_unit (st : SplitState) (footer u : String)
    (h : unitSomewhere u st) :
    ∃ b ∈ flushIf st footer, u.data <:+: b.data := by
  rcases h with ⟨b, hb, hib⟩ | ⟨hic, hcont⟩
  · exact ⟨b, mem_flushIf_of_mem st footer b hb, hib⟩
  · exact ⟨st.current_batch ++ footer, cur_mem_flushIf st footer hcont,
      infix_append_str u st.current_batch footer hic⟩

/-- Claim C2: no batch boundary separates a keyword-group header from
the first title line of its group, nor a novelty source header from its
first title line: the rendered pair occurs contiguously inside a single
emitted payload (both pieces are always moved together, either into the
current batch or into the freshly seeded next batch). -/
theorem C2_atomic_units (report : ReportData) (format_type : String)
    (update_info : Option UpdateInfo) (max_bytes : Nat) (mode : String)
    (now_str feishu_sep : String) :
    (∀ i stat, report.stats[i]? = some stat → stat.titles ≠ [] →
      ∃ b ∈ split_content_into_batches report format_type update_info max_bytes
          mode now_str feishu_sep,
        (word_header_of format_type report.stats.length i stat
          ++ stats_first_line format_type stat).data <:+: b.data) ∧
    (∀ sd ∈ report.new_titles, sd.titles ≠ [] →
      ∃ b ∈ split_content_into_batches report format_type update_info max_bytes
          mode now_str feishu_sep,
        (source_header_for format_type sd.source_name sd.titles.length
          ++ new_first_line format_type sd).data <:+: b.data) := by
  constructor
  · intro i stat hget _
    have hmem : (i, stat) ∈ report.stats.enum := by
      rw [List.mem_enum_iff_getElem?]
      exact hget
    have hstats_ne : report.stats.isEmpty ≠ true := by
      intro he
      rw [List.isEmpty_iff] at he
      rw [he] at hget
      simp at hget
    have hnem : ¬(report.stats.isEmpty ∧ report.new_titles.isEmpty
        ∧ report.failed_ids.isEmpty) := fun hc => hstats_ne hc.1
    simp only [split_content_into_batches]
    rw [if_neg hnem]
    apply flush_unit
    apply unitSomewhere_failed_stage
    apply unitSomewhere_new_stage
    unfold stats_stage
    rw [if_neg hstats_ne]
    exact foldl_estab
      (unitSomewhere (word_header_of format_type report.stats.length i stat
        ++ stats_first_line format_type stat))
      report.stats.enum (i, stat) hmem
      (fun istat _ s hs =>
        unitSomewhere_process_stat format_type feishu_sep max_bytes _ _ _ _ istat _ s hs)
      (fun s => estab_process_stat format_type feishu_sep max_bytes _ _ _ _ (i, stat) s)
      _
  · intro sd hmem _
    have hnew_ne : report.new_titles.isEmpty ≠ true := by
      intro he
      rw [List.isEmpty_iff] at he
      rw [he] at hmem
      exact List.not_mem_nil sd hmem
    have hnem : ¬(report.stats.isEmpty ∧ report.new_titles.isEmpty
        ∧ report.failed_ids.isEmpty) := fun hc => hnew_ne hc.2.1
    simp only [split_content_into_batches]
    rw [if_neg hnem]
    apply flush_unit
    apply unitSomewhere_failed_stage
    unfold new_stage
    rw [if_neg hnew_ne]
    exact foldl_estab
      (unitSomewhere (source_header_for format_type sd.source_name sd.titles.length
        ++ new_first_line format_type sd))
      report.new_titles sd hmem
      (fun sd' _ s hs =>
        unitSomewhere_process_source format_type max_bytes _ _ _ sd' _ s hs)
      (fun s => estab_process_source format_type max_bytes _ _ _ sd s)
      _

/-- Witness for C2: the atomic unit of the single stat group appears
contiguously in a produced batch. -/
theorem C2_atomic_units_witness :
    ∃ b ∈ split_content_into_batches
        ⟨[⟨"w", 1, 0, [⟨"A", "s", "", 1, [1], 0, "", "", false⟩]⟩], [], [], 0⟩
        "telegram" none 4000 "daily" "T" "---",
      (word_header_of "telegram" 1 0 ⟨"w", 1, 0, [⟨"A", "s", "", 1, [1], 0, "", "", false⟩]⟩
        ++ stats_first_line "telegram"
          ⟨"w", 1, 0, [⟨"A", "s", "", 1, [1], 0, "", "", false⟩]⟩).data <:+: b.data :=
  (C2_atomic_units
    ⟨[⟨"w", 1, 0, [⟨"A", "s", "", 1, [1], 0, "", "", false⟩]⟩], [], [], 0⟩
    "telegram" none 4000 "daily" "T" "---").1 0
    ⟨"w", 1, 0, [⟨"A", "s", "", 1, [1], 0, "", "", false⟩]⟩ (by decide) (by decide)

end TrendRadar
